import Mathlib

/-!
Verification of the OpenPLC runtime core (C sources) against its
natural-language specification, via a shallow embedding in Lean 4.

The embedding covers:
* the scan-cycle thread of `plc_app/plc_state_manager.c` as an event trace;
* the image tables of `plc_app/image_tables.c` (thirteen pointer matrices,
  the fill / clear operations);
* the state machine `plc_set_state` / `load_plc_program` / `unload_plc_program`;
* the plugin driver initialization loop of `drivers/plugin_driver.c`;
* the descriptor parser `drivers/plugin_config.c`;
* the timing-statistics updates of `plc_app/scan_cycle_manager.c`;
* the debug codec `debugGetTrace` of `plc_app/debug_handler.c`.
-/

namespace OpenPLC

/-- PLC lifecycle state, from `PLCState` in `plc_state_manager.h`. -/
inductive PLCState
  | init
  | running
  | stopped
  | error
  | empty
deriving DecidableEq, Repr

/-- Observable events of the runtime threads.  Each constructor corresponds
to one call site in `plc_state_manager.c` (logging, clock reads and the
stats-counter reset are elided; they do not touch the modelled state). -/
inductive Ev
  | setRealtimePriority
  | symbolsInitOk
  | symbolsInitFail
  | setBufferPointers
  | configInit
  | glueVars
  | stateSet (s : PLCState)
  | scanTimeStart
  | mutexTake
  | configRun (tick : Nat)
  | updateTime
  | heartbeat
  | mutexGive
  | scanTimeEnd
  | sleepUntil
  | fanoutCycleStart
  | fanoutCycleEnd
  | fillNullPointers
  | clearNullPointers
  | threadJoin
  | pluginManagerDestroy
deriving DecidableEq, Repr

/-- Which required artifact symbols resolve, one flag per symbol looked up by
`symbols_init` in `image_tables.c` (lines 58-89). -/
structure ArtifactSymbols where
  config_run : Bool
  config_init : Bool
  glueVars : Bool
  updateTime : Bool
  setBufferPointers : Bool
  common_ticktime : Bool
  plc_program_md5 : Bool
  set_endianness : Bool
  get_var_count : Bool
  get_var_size : Bool
  get_var_addr : Bool
  set_trace : Bool
deriving DecidableEq, Repr

/-- Negation of the failure check of `symbols_init` (image_tables.c lines
92-95): all twelve required symbols resolved. -/
def symbols_all_present (a : ArtifactSymbols) : Bool :=
  a.config_run && a.config_init && a.glueVars && a.updateTime &&
  a.setBufferPointers && a.common_ticktime && a.plc_program_md5 &&
  a.set_endianness && a.get_var_count && a.get_var_size && a.get_var_addr &&
  a.set_trace

/-- Embedding of `symbols_init` (image_tables.c lines 55-117): returns 0 and
calls `ext_setBufferPointers` when every required symbol resolved, otherwise
logs and returns -1 without invoking any artifact function.  The optional
`python_loader_set_loggers` hook does not touch modelled state and is
elided. -/
def symbols_init (a : ArtifactSymbols) : Int × List Ev :=
  if symbols_all_present a then (0, [Ev.symbolsInitOk, Ev.setBufferPointers])
  else (-1, [Ev.symbolsInitFail])

/-- Initialization prefix of `plc_cycle_thread` (plc_state_manager.c lines
22-42), as executed: `set_realtime_priority();` then `symbols_init(pm);`
with its RETURN VALUE DISCARDED, then unconditionally `ext_config_init__();`
`ext_glueVars();` and the transition to RUNNING. -/
def plc_cycle_thread_init_trace (a : ArtifactSymbols) : List Ev :=
  Ev.setRealtimePriority :: (symbols_init a).2 ++
    [Ev.configInit, Ev.glueVars, Ev.stateSet PLCState.running]

/-- Body of one iteration of the scan loop of `plc_cycle_thread`
(plc_state_manager.c lines 44-65), in source order:
`scan_cycle_time_start` ; `plugin_mutex_take` ; `ext_config_run__(tick__++)` ;
`ext_updateTime` ; heartbeat store ; `plugin_mutex_give` ;
`scan_cycle_time_end` ; deadline computation and `sleep_until`. -/
def plc_cycle_body_trace (tick : Nat) : List Ev :=
  [Ev.scanTimeStart, Ev.mutexTake, Ev.configRun tick, Ev.updateTime,
   Ev.heartbeat, Ev.mutexGive, Ev.scanTimeEnd, Ev.sleepUntil]

/-- Trace of `unload_plc_program` (plc_state_manager.c lines 119-145) in the
loaded case: store STOPPED under the state lock, `pthread_join`, then
`plugin_manager_destroy` (which `dlclose`s the artifact handle). -/
def unload_plc_program_trace : List Ev :=
  [Ev.stateSet PLCState.stopped, Ev.threadJoin, Ev.pluginManagerDestroy]

/-- BUFFER_SIZE from `image_tables.h`. -/
def BUFFER_SIZE : Nat := 1024

/-- Target of a non-null cell reference in an image-table matrix: either
storage inside the loaded program artifact (bound by `glueVars`), or the
runtime-owned scratch cell of the same matrix at the same index (the
`temp_*` static arrays of `image_tables.c`). -/
inductive PtrTarget
  | program (addr : Nat)
  | scratch (i : Nat)
  | scratchBit (i b : Nat)
deriving DecidableEq, Repr

/-- One of the eleven one-dimensional pointer matrices (`byte_input[1024]`,
..., `lint_memory[1024]`) together with its scratch backing array
(`temp_byte_input[1024]`, ...).  `ptrs i = none` models a NULL pointer;
`temp` holds the values of the scratch cells. -/
structure CellMatrix where
  ptrs : Nat → Option PtrTarget
  temp : Nat → Nat

/-- One of the two boolean matrices (`bool_input[1024][8]`,
`bool_output[1024][8]`) with its scratch array. -/
structure BitMatrix where
  ptrs : Nat → Nat → Option PtrTarget
  temp : Nat → Nat → Nat

/-- Body of one iteration of a fill loop of `image_tables_fill_null_pointers`
over a one-dimensional matrix (image_tables.c, e.g. lines 167-176): if the
pointer at `i` is NULL, zero the scratch cell and point the entry at it;
otherwise leave the matrix unchanged. -/
def fill_cell_step (m : CellMatrix) (i : Nat) : CellMatrix :=
  if m.ptrs i = none then
    ⟨fun j => if j = i then some (PtrTarget.scratch i) else m.ptrs j,
     fun j => if j = i then 0 else m.temp j⟩
  else m

/-- The `for (i = 0; i < BUFFER_SIZE; i++)` fill loop over a one-dimensional
matrix, as iterated application of `fill_cell_step` to the index sequence. -/
def fill_cell_go : List Nat → CellMatrix → CellMatrix
  | [], m => m
  | i :: l, m => fill_cell_go l (fill_cell_step m i)

/-- Matrix produced by the fill loop over a one-dimensional matrix. -/
def fill_cell_matrix (m : CellMatrix) : CellMatrix :=
  fill_cell_go (List.range BUFFER_SIZE) m

/-- Contribution of a one-dimensional fill loop to the `filled_count` local
of `image_tables_fill_null_pointers`: one per iteration whose NULL test
fires, threaded through the same per-step matrix evolution as the loop. -/
def fill_cell_count_go : List Nat → CellMatrix → Nat
  | [], _ => 0
  | i :: l, m =>
      (if m.ptrs i = none then 1 else 0) + fill_cell_count_go l (fill_cell_step m i)

/-- Number of pointers the fill loop over a one-dimensional matrix fills. -/
def fill_cell_count (m : CellMatrix) : Nat :=
  fill_cell_count_go (List.range BUFFER_SIZE) m

/-- Body of one iteration of the nested fill loops over a boolean matrix
(image_tables.c lines 140-151), at row `i`, bit `b`. -/
def fill_bit_step (m : BitMatrix) (i b : Nat) : BitMatrix :=
  if m.ptrs i b = none then
    ⟨fun j c => if j = i ∧ c = b then some (PtrTarget.scratchBit i b)
                else m.ptrs j c,
     fun j c => if j = i ∧ c = b then 0 else m.temp j c⟩
  else m

/-- Index sequence of the nested `for i < 1024, for b < 8` loops. -/
def bitIndices : List (Nat × Nat) :=
  (List.range BUFFER_SIZE).flatMap (fun i => (List.range 8).map (fun b => (i, b)))

/-- The nested fill loop over a boolean matrix. -/
def fill_bit_go : List (Nat × Nat) → BitMatrix → BitMatrix
  | [], m => m
  | (i, b) :: l, m => fill_bit_go l (fill_bit_step m i b)

/-- Matrix produced by the fill loop over a boolean matrix. -/
def fill_bit_matrix (m : BitMatrix) : BitMatrix :=
  fill_bit_go bitIndices m

/-- Contribution of a boolean fill loop to `filled_count`. -/
def fill_bit_count_go : List (Nat × Nat) → BitMatrix → Nat
  | [], _ => 0
  | (i, b) :: l, m =>
      (if m.ptrs i b = none then 1 else 0) + fill_bit_count_go l (fill_bit_step m i b)

/-- Number of pointers the fill loop over a boolean matrix fills. -/
def fill_bit_count (m : BitMatrix) : Nat :=
  fill_bit_count_go bitIndices m

/-- The thirteen pointer matrices of `image_tables.c` (lines 11-33). -/
structure ImageTables where
  bool_input : BitMatrix
  bool_output : BitMatrix
  byte_input : CellMatrix
  byte_output : CellMatrix
  int_input : CellMatrix
  int_output : CellMatrix
  dint_input : CellMatrix
  dint_output : CellMatrix
  lint_input : CellMatrix
  lint_output : CellMatrix
  int_memory : CellMatrix
  dint_memory : CellMatrix
  lint_memory : CellMatrix

/-- Embedding of `image_tables_fill_null_pointers` (image_tables.c lines
135-289): run the thirteen fill loops, in source order, on the thirteen
matrices.  The loops are independent (each touches one matrix only), so the
sequential C function acts componentwise; the `filled_count` it logs is
embedded separately as `image_tables_fill_count`. -/
def image_tables_fill_null_pointers (t : ImageTables) : ImageTables :=
  ⟨fill_bit_matrix t.bool_input, fill_bit_matrix t.bool_output,
   fill_cell_matrix t.byte_input, fill_cell_matrix t.byte_output,
   fill_cell_matrix t.int_input, fill_cell_matrix t.int_output,
   fill_cell_matrix t.dint_input, fill_cell_matrix t.dint_output,
   fill_cell_matrix t.lint_input, fill_cell_matrix t.lint_output,
   fill_cell_matrix t.int_memory, fill_cell_matrix t.dint_memory,
   fill_cell_matrix t.lint_memory⟩

/-- The `filled_count` value logged by `image_tables_fill_null_pointers`:
the sum, in source order, of the counts of the thirteen fill loops. -/
def image_tables_fill_count (t : ImageTables) : Nat :=
  fill_bit_count t.bool_input + fill_bit_count t.bool_output +
  fill_cell_count t.byte_input + fill_cell_count t.byte_output +
  fill_cell_count t.int_input + fill_cell_count t.int_output +
  fill_cell_count t.dint_input + fill_cell_count t.dint_output +
  fill_cell_count t.lint_input + fill_cell_count t.lint_output +
  fill_cell_count t.int_memory + fill_cell_count t.dint_memory +
  fill_cell_count t.lint_memory

/-- Clearing loop over a one-dimensional matrix (image_tables.c, e.g. lines
315-318): every pointer in the first `BUFFER_SIZE` slots becomes NULL; the
scratch values are not touched.  The iterations are independent, so the loop
is embedded by its pointwise effect. -/
def clear_cell_matrix (m : CellMatrix) : CellMatrix :=
  ⟨fun i => if i < BUFFER_SIZE then none else m.ptrs i, m.temp⟩

/-- Clearing loop over a boolean matrix (image_tables.c lines 297-303). -/
def clear_bit_matrix (m : BitMatrix) : BitMatrix :=
  ⟨fun i b => if i < BUFFER_SIZE ∧ b < 8 then none else m.ptrs i b, m.temp⟩

/-- Embedding of `image_tables_clear_null_pointers` (image_tables.c lines
291-381): set every cell reference of every matrix back to NULL. -/
def image_tables_clear_null_pointers (t : ImageTables) : ImageTables :=
  ⟨clear_bit_matrix t.bool_input, clear_bit_matrix t.bool_output,
   clear_cell_matrix t.byte_input, clear_cell_matrix t.byte_output,
   clear_cell_matrix t.int_input, clear_cell_matrix t.int_output,
   clear_cell_matrix t.dint_input, clear_cell_matrix t.dint_output,
   clear_cell_matrix t.lint_input, clear_cell_matrix t.lint_output,
   clear_cell_matrix t.int_memory, clear_cell_matrix t.dint_memory,
   clear_cell_matrix t.lint_memory⟩

/-- Effect of the load path of `plc_cycle_thread` (plc_state_manager.c lines
26-30) on the image tables.  `symbols_init` resolves symbols and calls the
artifact's `setBufferPointers`, which only records the matrix base addresses
inside the artifact; `config_init__` initializes artifact-internal state; the
only step that writes the pointer matrices is the artifact's `glueVars`
callback, abstracted here as the parameter `glue`.  The load path never
calls `image_tables_fill_null_pointers`. -/
def plc_load_bind_tables (glue : ImageTables → ImageTables)
    (t : ImageTables) : ImageTables :=
  glue t

/-- Effect of `unload_plc_program` (plc_state_manager.c lines 119-145) on the
image tables: the function stores STOPPED, joins the scan thread and calls
`plugin_manager_destroy` (which `dlclose`s the artifact); none of these
writes any pointer matrix, and `image_tables_clear_null_pointers` is not
invoked, so the tables are returned unchanged. -/
def unload_plc_program_tables (t : ImageTables) : ImageTables :=
  t

/-- Image tables with every pointer NULL and scratch cells zeroed: the state
of the file-scope arrays of `image_tables.c` at process start. -/
def emptyTables : ImageTables :=
  ⟨⟨fun _ _ => none, fun _ _ => 0⟩, ⟨fun _ _ => none, fun _ _ => 0⟩,
   ⟨fun _ => none, fun _ => 0⟩, ⟨fun _ => none, fun _ => 0⟩,
   ⟨fun _ => none, fun _ => 0⟩, ⟨fun _ => none, fun _ => 0⟩,
   ⟨fun _ => none, fun _ => 0⟩, ⟨fun _ => none, fun _ => 0⟩,
   ⟨fun _ => none, fun _ => 0⟩, ⟨fun _ => none, fun _ => 0⟩,
   ⟨fun _ => none, fun _ => 0⟩, ⟨fun _ => none, fun _ => 0⟩,
   ⟨fun _ => none, fun _ => 0⟩⟩

/-- Completeness predicate on the image tables: every cell reference of
every matrix (within the `BUFFER_SIZE` bounds) is non-null. -/
def fillComplete (t : ImageTables) : Prop :=
  ∀ (i : Fin BUFFER_SIZE) (b : Fin 8),
    (t.bool_input.ptrs i b).isSome = true ∧
    (t.bool_output.ptrs i b).isSome = true ∧
    (t.byte_input.ptrs i).isSome = true ∧
    (t.byte_output.ptrs i).isSome = true ∧
    (t.int_input.ptrs i).isSome = true ∧
    (t.int_output.ptrs i).isSome = true ∧
    (t.dint_input.ptrs i).isSome = true ∧
    (t.dint_output.ptrs i).isSome = true ∧
    (t.lint_input.ptrs i).isSome = true ∧
    (t.lint_output.ptrs i).isSome = true ∧
    (t.int_memory.ptrs i).isSome = true ∧
    (t.dint_memory.ptrs i).isSome = true ∧
    (t.lint_memory.ptrs i).isSome = true

/-- Pointwise effect of one fill pass on a one-dimensional matrix: an
in-range NULL entry is pointed at its own zeroed scratch cell; every other
entry (and every other scratch value) is unchanged. -/
def fillPointwiseCell (old new : CellMatrix) : Prop :=
  ∀ i : Nat,
    new.ptrs i = (if i < BUFFER_SIZE ∧ old.ptrs i = none
                  then some (PtrTarget.scratch i) else old.ptrs i) ∧
    new.temp i = (if i < BUFFER_SIZE ∧ old.ptrs i = none then 0
                  else old.temp i)

/-- Pointwise effect of one fill pass on a boolean matrix. -/
def fillPointwiseBit (old new : BitMatrix) : Prop :=
  ∀ i b : Nat,
    new.ptrs i b = (if (i < BUFFER_SIZE ∧ b < 8) ∧ old.ptrs i b = none
                    then some (PtrTarget.scratchBit i b) else old.ptrs i b) ∧
    new.temp i b = (if (i < BUFFER_SIZE ∧ b < 8) ∧ old.ptrs i b = none then 0
                    else old.temp i b)

/-- Pointwise effect of one fill pass on all thirteen matrices. -/
def fillPointwise (old new : ImageTables) : Prop :=
  fillPointwiseBit old.bool_input new.bool_input ∧
  fillPointwiseBit old.bool_output new.bool_output ∧
  fillPointwiseCell old.byte_input new.byte_input ∧
  fillPointwiseCell old.byte_output new.byte_output ∧
  fillPointwiseCell old.int_input new.int_input ∧
  fillPointwiseCell old.int_output new.int_output ∧
  fillPointwiseCell old.dint_input new.dint_input ∧
  fillPointwiseCell old.dint_output new.dint_output ∧
  fillPointwiseCell old.lint_input new.lint_input ∧
  fillPointwiseCell old.lint_output new.lint_output ∧
  fillPointwiseCell old.int_memory new.int_memory ∧
  fillPointwiseCell old.dint_memory new.dint_memory ∧
  fillPointwiseCell old.lint_memory new.lint_memory

/-- Artifact whose exports resolve completely. -/
def allSymbolsPresent : ArtifactSymbols :=
  ⟨true, true, true, true, true, true, true, true, true, true, true, true⟩

/-- Artifact that exports everything except the required `set_trace`. -/
def missingSetTrace : ArtifactSymbols :=
  ⟨true, true, true, true, true, true, true, true, true, true, true, false⟩

/-- Image tables in which the program bound exactly one cell:
`byte_input[0]`.  Used as a concrete post-load state. -/
def boundTables : ImageTables :=
  { emptyTables with
    byte_input := ⟨fun i => if i = 0 then some (PtrTarget.program 0) else none,
                   fun _ => 0⟩ }

/-- World state of the PLC state machine (`plc_state_manager.c`):
the state word `plc_state`, whether `plc_program` (the `PluginManager*`
global) is non-NULL, and the outcomes of the environment calls made along
the RUNNING transition: `find_libplc_file`, `plugin_manager_create`,
`plugin_manager_load` and `pthread_create`. -/
structure StateWorld where
  plc_state : PLCState
  plc_program : Bool
  find_ok : Bool
  create_ok : Bool
  load_ok : Bool
  thread_ok : Bool
deriving DecidableEq, Repr

/-- Embedding of `load_plc_program` (plc_state_manager.c lines 70-117):
NULL manager sets ERROR and returns -1; `plugin_manager_load` success sets
INIT then spawns the cycle thread (failure there sets ERROR, -1); load
failure sets EMPTY and returns -1. -/
def load_plc_program (w : StateWorld) : StateWorld × Int :=
  if w.plc_program = false then
    ({ w with plc_state := PLCState.error }, -1)
  else if w.load_ok then
    if w.thread_ok then ({ w with plc_state := PLCState.init }, 0)
    else ({ w with plc_state := PLCState.error }, -1)
  else
    ({ w with plc_state := PLCState.empty }, -1)

/-- Embedding of `unload_plc_program` (plc_state_manager.c lines 119-145):
with a loaded manager it stores STOPPED, joins the thread, destroys the
manager (the global becomes NULL) and returns 0; with no loaded manager it
returns -1 touching nothing. -/
def unload_plc_program (w : StateWorld) : StateWorld × Int :=
  if w.plc_program then
    ({ w with plc_state := PLCState.stopped, plc_program := false }, 0)
  else (w, -1)

/-- Embedding of `plc_set_state` (plc_state_manager.c lines 156-213),
branch for branch: the equal-state early `false` return; the unconditional
`plc_state = new_state` store; for RUNNING, the discovery/create path when
no program is loaded (failures store EMPTY and return false) followed by
`load_plc_program` (negative result stores ERROR and returns false); for
STOPPED, `unload_plc_program` (negative result returns false). -/
def plc_set_state (w : StateWorld) (new_state : PLCState) : StateWorld × Bool :=
  if w.plc_state = new_state then (w, false)
  else
    let w1 : StateWorld := { w with plc_state := new_state }
    if new_state = PLCState.running then
      if w1.plc_program = false then
        if w1.find_ok = false then ({ w1 with plc_state := PLCState.empty }, false)
        else if w1.create_ok = false then ({ w1 with plc_state := PLCState.empty }, false)
        else
          let r := load_plc_program { w1 with plc_program := true }
          if r.2 < 0 then ({ r.1 with plc_state := PLCState.error }, false)
          else (r.1, true)
      else
        let r := load_plc_program w1
        if r.2 < 0 then ({ r.1 with plc_state := PLCState.error }, false)
        else (r.1, true)
    else if new_state = PLCState.stopped then
      let r := unload_plc_program w1
      if r.2 < 0 then (r.1, false) else (r.1, true)
    else (w1, true)

/-- A stopped world with no loaded program whose `find_libplc_file` call
fails. -/
def stoppedNoLib : StateWorld :=
  ⟨PLCState.stopped, false, false, true, true, true⟩

/-- A stopped world with a loaded program and a cooperative environment. -/
def stoppedLoaded : StateWorld :=
  ⟨PLCState.stopped, true, true, true, true, true⟩

/-- Plugin type, from `plugin_type_t` in `plugin_config.h`. -/
inductive plugin_type_t
  | python
  | native
deriving DecidableEq, Repr

/-- One slot of `driver->plugins` as seen by `plugin_driver_init`
(plugin_driver.c lines 223-308): the config's `enabled` flag and `type`,
whether the language bundle with its init entry point is present
(`python_plugin && pFuncInit` resp. `native_plugin && init`), whether
`generate_structured_args_with_driver` succeeds, and whether the init call
itself succeeds (Python init returns non-NULL / native init returns 0). -/
structure PluginInst where
  enabled : Bool
  type : plugin_type_t
  has_init : Bool
  args_ok : Bool
  init_ok : Bool
deriving DecidableEq, Repr

/-- Embedding of the loop of `plugin_driver_init` starting at slot `idx`:
returns the C return value and the list of slot indices whose init entry
point was invoked.  Disabled plugins and plugins without an init entry
point are skipped; an args-generation failure returns -1 before any call;
a failing init call returns -1 right after that call, abandoning the rest
of the loop. -/
def plugin_driver_init_from (idx : Nat) : List PluginInst → Int × List Nat
  | [] => (0, [])
  | p :: rest =>
    if p.enabled = false then plugin_driver_init_from (idx + 1) rest
    else if p.type = plugin_type_t.python ∧ p.has_init = true then
      if p.args_ok = false then (-1, [])
      else if p.init_ok = false then (-1, [idx])
      else
        match plugin_driver_init_from (idx + 1) rest with
        | (r, called) => (r, idx :: called)
    else if p.type = plugin_type_t.native ∧ p.has_init = true then
      if p.args_ok = false then (-1, [])
      else if p.init_ok = false then (-1, [idx])
      else
        match plugin_driver_init_from (idx + 1) rest with
        | (r, called) => (r, idx :: called)
    else plugin_driver_init_from (idx + 1) rest

/-- `plugin_driver_init` over the whole plugin array (driver non-NULL). -/
def plugin_driver_init (ps : List PluginInst) : Int × List Nat :=
  plugin_driver_init_from 0 ps

/-- Slot indices (counting from `start`) holding an enabled plugin with an
init entry point: the plugins whose init a full pass would invoke. -/
def initedIdx (start : Nat) : List PluginInst → List Nat
  | [] => []
  | p :: rest =>
    if p.enabled = true ∧ p.has_init = true then start :: initedIdx (start + 1) rest
    else initedIdx (start + 1) rest

/-- An enabled native plugin whose init entry point fails. -/
def pFail : PluginInst := ⟨true, plugin_type_t.native, true, true, false⟩

/-- An enabled native plugin whose init succeeds. -/
def pOkNat : PluginInst := ⟨true, plugin_type_t.native, true, true, true⟩

/-- The character set stripped from string tails by `remove_newline`
(plugin_config.c lines 14-20): LF, CR, space, tab. -/
def isTrailWS (c : Char) : Bool :=
  c = '\n' ∨ c = '\r' ∨ c = ' ' ∨ c = '\t'

/-- Embedding of `remove_newline` (plugin_config.c lines 7-21): strips the
maximal run of LF / CR / space / tab characters from the END of the string
(it never touches leading characters). -/
def remove_newline (s : List Char) : List Char :=
  (s.reverse.dropWhile isTrailWS).reverse

/-- Spec-side trim of the amended wording: trailing whitespace and CR/LF
only. -/
def stripTrailingWS (s : List Char) : List Char :=
  (s.reverse.dropWhile isTrailWS).reverse

/-- Spec-side trim of the original wording: surrounding whitespace (both
ends) and trailing CR/LF. -/
def trimSurrounding (s : List Char) : List Char :=
  ((s.dropWhile isTrailWS).reverse.dropWhile isTrailWS).reverse

/-- The whitespace set skipped by C `atoi` (`isspace`). -/
def isSpaceChar (c : Char) : Bool :=
  c = ' ' ∨ c = '\t' ∨ c = '\n' ∨ c = '\x0b' ∨ c = '\x0c' ∨ c = '\r'

/-- Digit-accumulation loop of C `atoi`. -/
def atoiNatGo : List Char → Nat → Nat
  | [], acc => acc
  | c :: rest, acc =>
    if c.isDigit then atoiNatGo rest (acc * 10 + (c.toNat - 48)) else acc

/-- Decimal value of a digit string (spec side: the numeric value of a
textual field). -/
def natOfDigits (s : List Char) : Nat := atoiNatGo s 0

/-- Embedding of C `atoi`: skip leading whitespace, optional sign, then
accumulate leading digits. -/
def atoi (s : List Char) : Int :=
  match s.dropWhile isSpaceChar with
  | [] => 0
  | c :: rest =>
    if c = '-' then -(Int.ofNat (atoiNatGo rest 0))
    else if c = '+' then Int.ofNat (atoiNatGo rest 0)
    else Int.ofNat (atoiNatGo (c :: rest) 0)

/-- Delimiter set of the first five `strtok` calls of
`parse_plugin_config`: the single comma. -/
def isMainDelim (c : Char) : Bool := c = ','

/-- Delimiter set of the sixth (venv) `strtok` call: comma, LF, CR. -/
def isLastDelim (c : Char) : Bool := c = ',' ∨ c = '\n' ∨ c = '\r'

/-- One `strtok` step: skip leading delimiters; if nothing remains, NULL;
otherwise the token is the maximal delimiter-free prefix and scanning
resumes after the delimiter that ended it (or at the terminator). -/
def strtok1 (isDelim : Char → Bool) (s : List Char) :
    Option (List Char × List Char) :=
  let s1 := s.dropWhile isDelim
  if s1.isEmpty then none
  else
    some (s1.takeWhile (fun x => !isDelim x),
          (s1.dropWhile (fun x => !isDelim x)).drop 1)

/-- `plugin_config_t` from plugin_config.h: name[64], path[256], enabled,
type, plugin_related_config_path[256], venv_path[256]. -/
structure plugin_config_t where
  name : List Char
  path : List Char
  enabled : Int
  type : Int
  plugin_related_config_path : List Char
  venv_path : List Char
deriving DecidableEq, Repr

/-- One loop iteration of `parse_plugin_config` (plugin_config.c lines
42-98) past the skip check: five mandatory comma-separated fields (a
missing one stores nothing: `continue`), then the optional venv field with
delimiters ",\n\r".  Text fields are truncated by `strncpy` to 63 resp.
255 characters and then trailing-trimmed by `remove_newline`; numeric
fields go through `atoi` untrimmed. -/
def parse_plugin_line (line : List Char) : Option plugin_config_t :=
  match strtok1 isMainDelim line with
  | none => none
  | some (t1, r1) =>
    match strtok1 isMainDelim r1 with
    | none => none
    | some (t2, r2) =>
      match strtok1 isMainDelim r2 with
      | none => none
      | some (t3, r3) =>
        match strtok1 isMainDelim r3 with
        | none => none
        | some (t4, r4) =>
          match strtok1 isMainDelim r4 with
          | none => none
          | some (t5, r5) =>
            some ⟨remove_newline (t1.take 63),
                  remove_newline (t2.take 255),
                  atoi t3, atoi t4,
                  remove_newline (t5.take 255),
                  match strtok1 isLastDelim r5 with
                  | none => []
                  | some (t6, _) => remove_newline (t6.take 255)⟩

/-- The fgets loop of `parse_plugin_config` (plugin_config.c lines 34-99)
over the file's lines: stop once `max_configs` descriptors are stored;
skip lines whose first character is '#', LF or CR; a line missing a
mandatory field stores nothing. -/
def parse_plugin_config_go : List (List Char) → Nat → List plugin_config_t
  | [], _ => []
  | l :: rest, rem =>
    if rem = 0 then []
    else if l.head? = some '#' ∨ l.head? = some '\n' ∨ l.head? = some '\r' then
      parse_plugin_config_go rest rem
    else
      match parse_plugin_line l with
      | none => parse_plugin_config_go rest rem
      | some cfg => cfg :: parse_plugin_config_go rest (rem - 1)

/-- One `fgets(line, 512, file)` read from the remaining file content:
at most 511 characters, stopping right after the first LF. -/
def takeChunk (s : List Char) : List Char :=
  let t := s.takeWhile (fun c => !(c == '\n'))
  if t.length < 511 then s.take (t.length + 1) else s.take 511

/-- The file content left after one `fgets(line, 512, file)` read. -/
def dropChunk (s : List Char) : List Char :=
  let t := s.takeWhile (fun c => !(c == '\n'))
  if t.length < 511 then s.drop (t.length + 1) else s.drop 511

/-- All the `fgets` reads of the file, fuelled by the content length
(each read consumes at least one character). -/
def fgetsChunksGo : Nat → List Char → List (List Char)
  | 0, _ => []
  | fuel + 1, s =>
    if s.isEmpty then [] else takeChunk s :: fgetsChunksGo fuel (dropChunk s)

/-- The sequence of lines `fgets(line, 512, file)` delivers for a file's
raw content: physical lines longer than the 511-character buffer payload
are split into separate chunks, each parsed as a line of its own. -/
def fgetsChunks (s : List Char) : List (List Char) :=
  fgetsChunksGo s.length s

/-- `parse_plugin_config` (plugin_config.c lines 23-103) on a file's raw
content, as the list of stored descriptors (the C return value is their
number): the `char line[512]` buffer makes each loop iteration consume
one `fgets` chunk; `max_configs` is MAX_PLUGINS = 16 at the only call
site. -/
def parse_plugin_config (content : List Char) (max_configs : Nat) :
    List plugin_config_t :=
  parse_plugin_config_go (fgetsChunks content) max_configs

/-- Textual fields of one descriptor line before rendering: name, path,
enabled digits, type digits, config path, optional venv path. -/
structure RawDescriptor where
  name : List Char
  path : List Char
  en : List Char
  ty : List Char
  cfg : List Char
  venv : Option (List Char)
deriving DecidableEq, Repr

/-- The descriptor line's text before its terminating LF:
`name,path,enabled,type,config_path[,venv]`. -/
def mkFront (d : RawDescriptor) : List Char :=
  d.name ++ ',' :: (d.path ++ ',' :: (d.en ++ ',' :: (d.ty ++ ',' ::
    (d.cfg ++
      match d.venv with
      | none => []
      | some v => ',' :: v))))

/-- Render a descriptor as a full file line: its text plus LF. -/
def mkLine (d : RawDescriptor) : List Char :=
  mkFront d ++ ['\n']

/-- The descriptor the amended claim expects from one line: text fields
trailing-trimmed (NOT surrounding-trimmed), numeric fields read as
decimal, missing venv read as the empty string. -/
def expectedConfig (d : RawDescriptor) : plugin_config_t :=
  ⟨stripTrailingWS d.name, stripTrailingWS d.path,
   Int.ofNat (natOfDigits d.en), Int.ofNat (natOfDigits d.ty),
   stripTrailingWS d.cfg,
   match d.venv with
   | none => []
   | some v => stripTrailingWS v⟩

/-- Legality of one text field: nonempty, bounded, free of comma and
CR/LF. -/
def legalTextField (maxLen : Nat) (s : List Char) : Bool :=
  decide (s ≠ []) && decide (s.length ≤ maxLen) &&
  s.all (fun c => decide (c ≠ ',' ∧ c ≠ '\n' ∧ c ≠ '\r'))

/-- Legality of a descriptor: bounded comma-free text fields, a name not
opening a comment, digit-only numeric fields short enough for a C `int`
(at most 9 digits), and a rendered line that fits the 512-byte `fgets`
buffer (at most 510 characters before the LF). -/
def legalDescriptor (d : RawDescriptor) : Bool :=
  legalTextField 63 d.name && decide (d.name.head? ≠ some '#') &&
  legalTextField 255 d.path &&
  decide (d.en ≠ []) && d.en.all Char.isDigit &&
  decide (d.ty ≠ []) && d.ty.all Char.isDigit &&
  legalTextField 255 d.cfg &&
  (match d.venv with
   | none => true
   | some v => legalTextField 255 v) &&
  decide (d.en.length ≤ 9) && decide (d.ty.length ≤ 9) &&
  decide ((mkFront d).length ≤ 510)

/-- A line of the descriptor file: either a skipped line (a comment or
blank line, given as its text before the terminating LF) or a rendered
descriptor. -/
inductive LineItem
  | comment (front : List Char)
  | descriptor (d : RawDescriptor)
deriving DecidableEq, Repr

/-- The raw text of a line item, LF included. -/
def lineOfItem : LineItem → List Char
  | LineItem.comment front => front ++ ['\n']
  | LineItem.descriptor d => mkLine d

/-- Legality of a line item: a skipped line is blank or opens with '#' or
CR, is LF-free before its terminator and fits the `fgets` buffer;
descriptor lines carry a legal descriptor. -/
def legalItem : LineItem → Bool
  | LineItem.comment front =>
    decide (front = [] ∨ front.head? = some '#' ∨ front.head? = some '\r') &&
    decide (front.length ≤ 510) && decide ('\n' ∉ front)
  | LineItem.descriptor d => legalDescriptor d

/-- The descriptors among a file's line items, in order. -/
def descriptorsOf : List LineItem → List RawDescriptor
  | [] => []
  | LineItem.comment _ :: rest => descriptorsOf rest
  | LineItem.descriptor d :: rest => d :: descriptorsOf rest

/-- The line "a, b,1,1,c" plus LF: its second textual field carries a
leading space. -/
def cexLine : List Char :=
  ['a', ',', ' ', 'b', ',', '1', ',', '1', ',', 'c', '\n']

/-- A comment line for the parser witness. -/
def exComment : LineItem := LineItem.comment ['#', ' ', 't']

/-- A descriptor for the parser witness: `p,./x.so,1,1,c.cfg`. -/
def exDescriptor : RawDescriptor :=
  ⟨['p'], ['.', '/', 'x', '.', 's', 'o'], ['1'], ['1'],
   ['c', '.', 'c', 'f', 'g'], none⟩

/-- Witness file: one comment line, one descriptor line. -/
def exItems : List LineItem := [exComment, LineItem.descriptor exDescriptor]

/-- 2^64, the modulus of the C `uint64_t` arithmetic in
scan_cycle_manager.c. -/
def U64 : Nat := 2 ^ 64

/-- The timing state of scan_cycle_manager.c touched by the overrun logic:
the statics `expected_start_us`, `last_start_us` (uint64) and the stats
fields `scan_count`, `overruns` (int64).  The min/max/avg stats fields are
elided: they never feed back into these four. -/
structure ScanState where
  expected_start_us : Nat
  last_start_us : Nat
  scan_count : Int
  overruns : Int
deriving DecidableEq, Repr

/-- Embedding of `scan_cycle_time_start` (scan_cycle_manager.c lines
37-86): on the first cycle, set `expected_start_us = now + T/1000` (ns to
us) and record the start; on later cycles advance `expected_start_us` by
`T/1000` (uint64 addition, hence mod 2^64) and record the start. -/
def scan_cycle_time_start (T_ns : Nat) (now_us : Nat) (st : ScanState) :
    ScanState :=
  if st.scan_count = 0 then
    { st with expected_start_us := (now_us + T_ns / 1000) % U64,
              last_start_us := now_us,
              scan_count := st.scan_count + 1 }
  else
    { st with last_start_us := now_us,
              expected_start_us := (st.expected_start_us + T_ns / 1000) % U64,
              scan_count := st.scan_count + 1 }

/-- Embedding of `scan_cycle_time_end` (scan_cycle_manager.c lines
88-114): `overruns++` exactly when `now_us > expected_start_us`. -/
def scan_cycle_time_end (now_us : Nat) (st : ScanState) : ScanState :=
  if st.expected_start_us < now_us then
    { st with overruns := st.overruns + 1 }
  else st

/-- A run of scan cycles: each pair is (observed start time, observed end
time) in microseconds, each cycle doing `scan_cycle_time_start` then
`scan_cycle_time_end` as `plc_cycle_thread` does. -/
def runCycles (T_ns : Nat) : List (Nat × Nat) → ScanState → ScanState
  | [], st => st
  | (s, e) :: rest, st =>
    runCycles T_ns rest (scan_cycle_time_end e (scan_cycle_time_start T_ns s st))

/-- Timing state at thread start: `plc_cycle_thread` resets `scan_count`
to 0; the statics and `overruns` start at 0. -/
def initScanState : ScanState := ⟨0, 0, 0, 0⟩

/-- Spec-side overrun count following the claim's recurrence: `x` is the
expected start of the current cycle (the observed first start for cycle
1), the cycle overruns iff its end time exceeds `x + T`, and the next
cycle's expected start is `x + T`. -/
def overrunsFrom (Tus : Nat) : List (Nat × Nat) → Nat → Nat
  | [], _ => 0
  | (_, e) :: rest, x =>
    (if x + Tus < e then 1 else 0) + overrunsFrom Tus rest (x + Tus)

/-- Big-endian bytes of a 16-bit value, as debug_handler.c writes them
(`x >> 8` and `x & 0xFF`, each cast to uint8). -/
def be16 (n : Nat) : List Nat := [(n / 256) % 256, n % 256]

/-- Big-endian bytes of the 32-bit tick, as debug_handler.c writes them. -/
def be32 (n : Nat) : List Nat :=
  [(n / 16777216) % 256, (n / 65536) % 256, (n / 256) % 256, n % 256]

/-- The `lastVarIdx` accumulator of the `debugGetTrace` loop
(debug_handler.c lines 67-85): walk `fuel` indices from `varidx` with
accumulated payload size `rs`; each variable that still fits
(`rs + 10 + size ≤ 4096`) becomes the new last index, the first that does
not fit stops the loop. -/
def traceLast (size : Nat → Nat) : Nat → Nat → Nat → Nat → Nat
  | 0, _, _, lv => lv
  | fuel + 1, varidx, rs, lv =>
    if rs + 10 + size varidx ≤ 4096 then
      traceLast size fuel (varidx + 1) (rs + size varidx) varidx
    else lv

/-- The `responseSize` accumulator of the same loop. -/
def traceSize (size : Nat → Nat) : Nat → Nat → Nat → Nat
  | 0, _, rs => rs
  | fuel + 1, varidx, rs =>
    if rs + 10 + size varidx ≤ 4096 then
      traceSize size fuel (varidx + 1) (rs + size varidx)
    else rs

/-- The payload bytes written through `responsePtr` by the same loop:
each fitting variable's `varSize` bytes are appended in index order. -/
def tracePayload (size : Nat → Nat) (value : Nat → List Nat) :
    Nat → Nat → Nat → List Nat
  | 0, _, _ => []
  | fuel + 1, varidx, rs =>
    if rs + 10 + size varidx ≤ 4096 then
      value varidx ++ tracePayload size value fuel (varidx + 1) (rs + size varidx)
    else []

/-- Embedding of `debugGetTrace` (debug_handler.c lines 52-98): the
artifact supplies `varCount` (`get_var_count`), `size` (`get_var_size`)
and each variable's bytes `value` (`get_var_addr` + memcpy of `varSize`
bytes); out-of-bounds indices reply [0x43, 0x81]; otherwise the frame is
[0x43, 0x7E, lastVarIdx(2 BE), tick(4 BE), responseSize(2 BE), payload].
The loop from `startidx` to `endidx` runs `endidx + 1 - startidx` times;
its three accumulators are the three recursions above. -/
def debugGetTrace (varCount : Nat) (size : Nat → Nat)
    (value : Nat → List Nat) (tick : Nat) (startidx endidx : Nat) :
    List Nat :=
  if varCount ≤ startidx ∨ varCount ≤ endidx ∨ endidx < startidx then
    [0x43, 0x81]
  else
    0x43 :: 0x7E ::
      (be16 (traceLast size (endidx + 1 - startidx) startidx 0 startidx) ++
        be32 tick ++
        be16 (traceSize size (endidx + 1 - startidx) startidx 0) ++
        tracePayload size value (endidx + 1 - startidx) startidx 0)

/-- Spec-side greedy inclusion: the indices packed in order while
`10 + accumulated payload + size(var) ≤ 4096`. -/
def includedVars (size : Nat → Nat) : Nat → Nat → Nat → List Nat
  | 0, _, _ => []
  | fuel + 1, varidx, rs =>
    if rs + 10 + size varidx ≤ 4096 then
      varidx :: includedVars size fuel (varidx + 1) (rs + size varidx)
    else []

lemma fill_cell_go_ptrs (l : List Nat) (m : CellMatrix) (j : Nat) :
    (fill_cell_go l m).ptrs j =
      (if j ∈ l ∧ m.ptrs j = none then some (PtrTarget.scratch j)
       else m.ptrs j) := by
  induction l generalizing m with
  | nil => simp [fill_cell_go]
  | cons i tl ih =>
    rw [fill_cell_go, ih]
    by_cases hi : m.ptrs i = none
    · by_cases hji : j = i
      · subst hji
        simp [fill_cell_step, hi]
      · simp [fill_cell_step, hi, hji, List.mem_cons]
    · by_cases hji : j = i
      · subst hji
        simp [fill_cell_step, hi]
      · simp [fill_cell_step, hi, hji, List.mem_cons]

lemma fill_cell_go_temp (l : List Nat) (m : CellMatrix) (j : Nat) :
    (fill_cell_go l m).temp j =
      (if j ∈ l ∧ m.ptrs j = none then 0 else m.temp j) := by
  induction l generalizing m with
  | nil => simp [fill_cell_go]
  | cons i tl ih =>
    rw [fill_cell_go, ih]
    by_cases hi : m.ptrs i = none
    · by_cases hji : j = i
      · subst hji
        simp [fill_cell_step, hi]
      · simp [fill_cell_step, hi, hji, List.mem_cons]
    · by_cases hji : j = i
      · subst hji
        simp [fill_cell_step, hi]
      · simp [fill_cell_step, hi, hji, List.mem_cons]

lemma fill_cell_go_complete (l : List Nat) (m : CellMatrix)
    (h : ∀ i ∈ l, m.ptrs i ≠ none) :
    fill_cell_go l m = m := by
  induction l with
  | nil => rw [fill_cell_go]
  | cons i tl ih =>
    have hi : m.ptrs i ≠ none := h i (List.mem_cons_self i tl)
    have hstep : fill_cell_step m i = m := by
      simp [fill_cell_step, hi]
    rw [fill_cell_go, hstep]
    exact ih (fun j hj => h j (List.mem_cons_of_mem _ hj))

lemma fill_cell_count_go_complete (l : List Nat) (m : CellMatrix)
    (h : ∀ i ∈ l, m.ptrs i ≠ none) :
    fill_cell_count_go l m = 0 := by
  induction l with
  | nil => rw [fill_cell_count_go]
  | cons i tl ih =>
    have hi : m.ptrs i ≠ none := h i (List.mem_cons_self i tl)
    have hstep : fill_cell_step m i = m := by
      simp [fill_cell_step, hi]
    rw [fill_cell_count_go, hstep,
      ih (fun j hj => h j (List.mem_cons_of_mem _ hj))]
    simp [hi]

lemma fill_bit_go_ptrs (l : List (Nat × Nat)) (m : BitMatrix) (j b : Nat) :
    (fill_bit_go l m).ptrs j b =
      (if (j, b) ∈ l ∧ m.ptrs j b = none then some (PtrTarget.scratchBit j b)
       else m.ptrs j b) := by
  induction l generalizing m with
  | nil => simp [fill_bit_go]
  | cons i tl ih =>
    obtain ⟨i1, i2⟩ := i
    rw [fill_bit_go, ih]
    by_cases hi : m.ptrs i1 i2 = none
    · by_cases hji : j = i1 ∧ b = i2
      · obtain ⟨h1, h2⟩ := hji
        subst h1; subst h2
        simp [fill_bit_step, hi]
      · have hne : (j, b) ≠ (i1, i2) := by
          intro hx
          exact hji ⟨congrArg Prod.fst hx, congrArg Prod.snd hx⟩
        simp [fill_bit_step, hi, hji, hne, List.mem_cons]
    · by_cases hji : j = i1 ∧ b = i2
      · obtain ⟨h1, h2⟩ := hji
        subst h1; subst h2
        simp [fill_bit_step, hi]
      · have hne : (j, b) ≠ (i1, i2) := by
          intro hx
          exact hji ⟨congrArg Prod.fst hx, congrArg Prod.snd hx⟩
        simp [fill_bit_step, hi, hji, hne, List.mem_cons]

lemma fill_bit_go_temp (l : List (Nat × Nat)) (m : BitMatrix) (j b : Nat) :
    (fill_bit_go l m).temp j b =
      (if (j, b) ∈ l ∧ m.ptrs j b = none then 0 else m.temp j b) := by
  induction l generalizing m with
  | nil => simp [fill_bit_go]
  | cons i tl ih =>
    obtain ⟨i1, i2⟩ := i
    rw [fill_bit_go, ih]
    by_cases hi : m.ptrs i1 i2 = none
    · by_cases hji : j = i1 ∧ b = i2
      · obtain ⟨h1, h2⟩ := hji
        subst h1; subst h2
        simp [fill_bit_step, hi]
      · have hne : (j, b) ≠ (i1, i2) := by
          intro hx
          exact hji ⟨congrArg Prod.fst hx, congrArg Prod.snd hx⟩
        simp [fill_bit_step, hi, hji, hne, List.mem_cons]
    · by_cases hji : j = i1 ∧ b = i2
      · obtain ⟨h1, h2⟩ := hji
        subst h1; subst h2
        simp [fill_bit_step, hi]
      · have hne : (j, b) ≠ (i1, i2) := by
          intro hx
          exact hji ⟨congrArg Prod.fst hx, congrArg Prod.snd hx⟩
        simp [fill_bit_step, hi, hji, hne, List.mem_cons]

lemma fill_bit_go_complete (l : List (Nat × Nat)) (m : BitMatrix)
    (h : ∀ i ∈ l, m.ptrs i.1 i.2 ≠ none) :
    fill_bit_go l m = m := by
  induction l with
  | nil => rw [fill_bit_go]
  | cons i tl ih =>
    obtain ⟨i1, i2⟩ := i
    have hi : m.ptrs i1 i2 ≠ none := h (i1, i2) (List.mem_cons_self _ tl)
    have hstep : fill_bit_step m i1 i2 = m := by
      simp [fill_bit_step, hi]
    rw [fill_bit_go, hstep]
    exact ih (fun j hj => h j (List.mem_cons_of_mem _ hj))

lemma fill_bit_count_go_complete (l : List (Nat × Nat)) (m : BitMatrix)
    (h : ∀ i ∈ l, m.ptrs i.1 i.2 ≠ none) :
    fill_bit_count_go l m = 0 := by
  induction l with
  | nil => rw [fill_bit_count_go]
  | cons i tl ih =>
    obtain ⟨i1, i2⟩ := i
    have hi : m.ptrs i1 i2 ≠ none := h (i1, i2) (List.mem_cons_self _ tl)
    have hstep : fill_bit_step m i1 i2 = m := by
      simp [fill_bit_step, hi]
    rw [fill_bit_count_go, hstep,
      ih (fun j hj => h j (List.mem_cons_of_mem _ hj))]
    simp [hi]

lemma mem_bitIndices (j b : Nat) :
    (j, b) ∈ bitIndices ↔ j < BUFFER_SIZE ∧ b < 8 := by
  simp [bitIndices]

lemma fill_cell_matrix_ptrs (m : CellMatrix) (j : Nat) :
    (fill_cell_matrix m).ptrs j =
      (if j < BUFFER_SIZE ∧ m.ptrs j = none then some (PtrTarget.scratch j)
       else m.ptrs j) := by
  rw [fill_cell_matrix, fill_cell_go_ptrs]
  simp [List.mem_range]

lemma fill_cell_matrix_temp (m : CellMatrix) (j : Nat) :
    (fill_cell_matrix m).temp j =
      (if j < BUFFER_SIZE ∧ m.ptrs j = none then 0 else m.temp j) := by
  rw [fill_cell_matrix, fill_cell_go_temp]
  simp [List.mem_range]

lemma fill_bit_matrix_ptrs (m : BitMatrix) (j b : Nat) :
    (fill_bit_matrix m).ptrs j b =
      (if (j < BUFFER_SIZE ∧ b < 8) ∧ m.ptrs j b = none
       then some (PtrTarget.scratchBit j b) else m.ptrs j b) := by
  rw [fill_bit_matrix, fill_bit_go_ptrs]
  simp only [mem_bitIndices]

lemma fill_bit_matrix_temp (m : BitMatrix) (j b : Nat) :
    (fill_bit_matrix m).temp j b =
      (if (j < BUFFER_SIZE ∧ b < 8) ∧ m.ptrs j b = none then 0
       else m.temp j b) := by
  rw [fill_bit_matrix, fill_bit_go_temp]
  simp only [mem_bitIndices]

lemma fill_cell_matrix_complete (m : CellMatrix)
    (h : ∀ i, i < BUFFER_SIZE → m.ptrs i ≠ none) :
    fill_cell_matrix m = m := by
  rw [fill_cell_matrix]
  exact fill_cell_go_complete _ _ (fun i hi => h i (List.mem_range.mp hi))

lemma fill_cell_count_complete (m : CellMatrix)
    (h : ∀ i, i < BUFFER_SIZE → m.ptrs i ≠ none) :
    fill_cell_count m = 0 := by
  rw [fill_cell_count]
  exact fill_cell_count_go_complete _ _ (fun i hi => h i (List.mem_range.mp hi))

lemma fill_bit_matrix_complete (m : BitMatrix)
    (h : ∀ i b, i < BUFFER_SIZE → b < 8 → m.ptrs i b ≠ none) :
    fill_bit_matrix m = m := by
  rw [fill_bit_matrix]
  exact fill_bit_go_complete _ _
    (fun i hi => h i.1 i.2 ((mem_bitIndices i.1 i.2).mp hi).1
      ((mem_bitIndices i.1 i.2).mp hi).2)

lemma fill_bit_count_complete (m : BitMatrix)
    (h : ∀ i b, i < BUFFER_SIZE → b < 8 → m.ptrs i b ≠ none) :
    fill_bit_count m = 0 := by
  rw [fill_bit_count]
  exact fill_bit_count_go_complete _ _
    (fun i hi => h i.1 i.2 ((mem_bitIndices i.1 i.2).mp hi).1
      ((mem_bitIndices i.1 i.2).mp hi).2)

lemma fill_cell_matrix_ptrs_ne_none (m : CellMatrix) (i : Nat)
    (hi : i < BUFFER_SIZE) : (fill_cell_matrix m).ptrs i ≠ none := by
  rw [fill_cell_matrix_ptrs]
  by_cases h : m.ptrs i = none
  · simp [hi, h]
  · simp [hi, h]

lemma fill_bit_matrix_ptrs_ne_none (m : BitMatrix) (i b : Nat)
    (hi : i < BUFFER_SIZE) (hb : b < 8) :
    (fill_bit_matrix m).ptrs i b ≠ none := by
  rw [fill_bit_matrix_ptrs]
  by_cases h : m.ptrs i b = none
  · simp [hi, hb, h]
  · simp [hi, hb, h]

lemma ImageTables_mk_bool_input (x1 x2 : BitMatrix)
    (x3 x4 x5 x6 x7 x8 x9 x10 x11 x12 x13 : CellMatrix) :
    (⟨x1, x2, x3, x4, x5, x6, x7, x8, x9, x10, x11, x12, x13⟩ :
      ImageTables).bool_input = x1 := rfl

lemma ImageTables_mk_bool_output (x1 x2 : BitMatrix)
    (x3 x4 x5 x6 x7 x8 x9 x10 x11 x12 x13 : CellMatrix) :
    (⟨x1, x2, x3, x4, x5, x6, x7, x8, x9, x10, x11, x12, x13⟩ :
      ImageTables).bool_output = x2 := rfl

lemma ImageTables_mk_byte_input (x1 x2 : BitMatrix)
    (x3 x4 x5 x6 x7 x8 x9 x10 x11 x12 x13 : CellMatrix) :
    (⟨x1, x2, x3, x4, x5, x6, x7, x8, x9, x10, x11, x12, x13⟩ :
      ImageTables).byte_input = x3 := rfl

lemma ImageTables_mk_byte_output (x1 x2 : BitMatrix)
    (x3 x4 x5 x6 x7 x8 x9 x10 x11 x12 x13 : CellMatrix) :
    (⟨x1, x2, x3, x4, x5, x6, x7, x8, x9, x10, x11, x12, x13⟩ :
      ImageTables).byte_output = x4 := rfl

lemma ImageTables_mk_int_input (x1 x2 : BitMatrix)
    (x3 x4 x5 x6 x7 x8 x9 x10 x11 x12 x13 : CellMatrix) :
    (⟨x1, x2, x3, x4, x5, x6, x7, x8, x9, x10, x11, x12, x13⟩ :
      ImageTables).int_input = x5 := rfl

lemma ImageTables_mk_int_output (x1 x2 : BitMatrix)
    (x3 x4 x5 x6 x7 x8 x9 x10 x11 x12 x13 : CellMatrix) :
    (⟨x1, x2, x3, x4, x5, x6, x7, x8, x9, x10, x11, x12, x13⟩ :
      ImageTables).int_output = x6 := rfl

lemma ImageTables_mk_dint_input (x1 x2 : BitMatrix)
    (x3 x4 x5 x6 x7 x8 x9 x10 x11 x12 x13 : CellMatrix) :
    (⟨x1, x2, x3, x4, x5, x6, x7, x8, x9, x10, x11, x12, x13⟩ :
      ImageTables).dint_input = x7 := rfl

lemma ImageTables_mk_dint_output (x1 x2 : BitMatrix)
    (x3 x4 x5 x6 x7 x8 x9 x10 x11 x12 x13 : CellMatrix) :
    (⟨x1, x2, x3, x4, x5, x6, x7, x8, x9, x10, x11, x12, x13⟩ :
      ImageTables).dint_output = x8 := rfl

lemma ImageTables_mk_lint_input (x1 x2 : BitMatrix)
    (x3 x4 x5 x6 x7 x8 x9 x10 x11 x12 x13 : CellMatrix) :
    (⟨x1, x2, x3, x4, x5, x6, x7, x8, x9, x10, x11, x12, x13⟩ :
      ImageTables).lint_input = x9 := rfl

lemma ImageTables_mk_lint_output (x1 x2 : BitMatrix)
    (x3 x4 x5 x6 x7 x8 x9 x10 x11 x12 x13 : CellMatrix) :
    (⟨x1, x2, x3, x4, x5, x6, x7, x8, x9, x10, x11, x12, x13⟩ :
      ImageTables).lint_output = x10 := rfl

lemma ImageTables_mk_int_memory (x1 x2 : BitMatrix)
    (x3 x4 x5 x6 x7 x8 x9 x10 x11 x12 x13 : CellMatrix) :
    (⟨x1, x2, x3, x4, x5, x6, x7, x8, x9, x10, x11, x12, x13⟩ :
      ImageTables).int_memory = x11 := rfl

lemma ImageTables_mk_dint_memory (x1 x2 : BitMatrix)
    (x3 x4 x5 x6 x7 x8 x9 x10 x11 x12 x13 : CellMatrix) :
    (⟨x1, x2, x3, x4, x5, x6, x7, x8, x9, x10, x11, x12, x13⟩ :
      ImageTables).dint_memory = x12 := rfl

lemma ImageTables_mk_lint_memory (x1 x2 : BitMatrix)
    (x3 x4 x5 x6 x7 x8 x9 x10 x11 x12 x13 : CellMatrix) :
    (⟨x1, x2, x3, x4, x5, x6, x7, x8, x9, x10, x11, x12, x13⟩ :
      ImageTables).lint_memory = x13 := rfl

lemma image_tables_fill_unfold (t : ImageTables) :
    image_tables_fill_null_pointers t =
      ⟨fill_bit_matrix t.bool_input, fill_bit_matrix t.bool_output,
       fill_cell_matrix t.byte_input, fill_cell_matrix t.byte_output,
       fill_cell_matrix t.int_input, fill_cell_matrix t.int_output,
       fill_cell_matrix t.dint_input, fill_cell_matrix t.dint_output,
       fill_cell_matrix t.lint_input, fill_cell_matrix t.lint_output,
       fill_cell_matrix t.int_memory, fill_cell_matrix t.dint_memory,
       fill_cell_matrix t.lint_memory⟩ := rfl

lemma fill_tables_complete (t : ImageTables) :
    fillComplete (image_tables_fill_null_pointers t) := by
  intro i b
  rw [image_tables_fill_unfold, ImageTables_mk_bool_input, ImageTables_mk_bool_output, ImageTables_mk_byte_input, ImageTables_mk_byte_output, ImageTables_mk_int_input, ImageTables_mk_int_output, ImageTables_mk_dint_input, ImageTables_mk_dint_output, ImageTables_mk_lint_input, ImageTables_mk_lint_output, ImageTables_mk_int_memory, ImageTables_mk_dint_memory, ImageTables_mk_lint_memory]
  exact ⟨Option.isSome_iff_ne_none.mpr
           (fill_bit_matrix_ptrs_ne_none _ i b i.isLt b.isLt),
         Option.isSome_iff_ne_none.mpr
           (fill_bit_matrix_ptrs_ne_none _ i b i.isLt b.isLt),
         Option.isSome_iff_ne_none.mpr
           (fill_cell_matrix_ptrs_ne_none _ i i.isLt),
         Option.isSome_iff_ne_none.mpr
           (fill_cell_matrix_ptrs_ne_none _ i i.isLt),
         Option.isSome_iff_ne_none.mpr
           (fill_cell_matrix_ptrs_ne_none _ i i.isLt),
         Option.isSome_iff_ne_none.mpr
           (fill_cell_matrix_ptrs_ne_none _ i i.isLt),
         Option.isSome_iff_ne_none.mpr
           (fill_cell_matrix_ptrs_ne_none _ i i.isLt),
         Option.isSome_iff_ne_none.mpr
           (fill_cell_matrix_ptrs_ne_none _ i i.isLt),
         Option.isSome_iff_ne_none.mpr
           (fill_cell_matrix_ptrs_ne_none _ i i.isLt),
         Option.isSome_iff_ne_none.mpr
           (fill_cell_matrix_ptrs_ne_none _ i i.isLt),
         Option.isSome_iff_ne_none.mpr
           (fill_cell_matrix_ptrs_ne_none _ i i.isLt),
         Option.isSome_iff_ne_none.mpr
           (fill_cell_matrix_ptrs_ne_none _ i i.isLt),
         Option.isSome_iff_ne_none.mpr
           (fill_cell_matrix_ptrs_ne_none _ i i.isLt)⟩

lemma fill_tables_pointwise (t : ImageTables) :
    fillPointwise t (image_tables_fill_null_pointers t) := by
  rw [fillPointwise, image_tables_fill_unfold]
  rw [ImageTables_mk_bool_input (fill_bit_matrix t.bool_input) (fill_bit_matrix t.bool_output) (fill_cell_matrix t.byte_input) (fill_cell_matrix t.byte_output) (fill_cell_matrix t.int_input) (fill_cell_matrix t.int_output) (fill_cell_matrix t.dint_input) (fill_cell_matrix t.dint_output) (fill_cell_matrix t.lint_input) (fill_cell_matrix t.lint_output) (fill_cell_matrix t.int_memory) (fill_cell_matrix t.dint_memory) (fill_cell_matrix t.lint_memory),
    ImageTables_mk_bool_output (fill_bit_matrix t.bool_input) (fill_bit_matrix t.bool_output) (fill_cell_matrix t.byte_input) (fill_cell_matrix t.byte_output) (fill_cell_matrix t.int_input) (fill_cell_matrix t.int_output) (fill_cell_matrix t.dint_input) (fill_cell_matrix t.dint_output) (fill_cell_matrix t.lint_input) (fill_cell_matrix t.lint_output) (fill_cell_matrix t.int_memory) (fill_cell_matrix t.dint_memory) (fill_cell_matrix t.lint_memory),
    ImageTables_mk_byte_input (fill_bit_matrix t.bool_input) (fill_bit_matrix t.bool_output) (fill_cell_matrix t.byte_input) (fill_cell_matrix t.byte_output) (fill_cell_matrix t.int_input) (fill_cell_matrix t.int_output) (fill_cell_matrix t.dint_input) (fill_cell_matrix t.dint_output) (fill_cell_matrix t.lint_input) (fill_cell_matrix t.lint_output) (fill_cell_matrix t.int_memory) (fill_cell_matrix t.dint_memory) (fill_cell_matrix t.lint_memory),
    ImageTables_mk_byte_output (fill_bit_matrix t.bool_input) (fill_bit_matrix t.bool_output) (fill_cell_matrix t.byte_input) (fill_cell_matrix t.byte_output) (fill_cell_matrix t.int_input) (fill_cell_matrix t.int_output) (fill_cell_matrix t.dint_input) (fill_cell_matrix t.dint_output) (fill_cell_matrix t.lint_input) (fill_cell_matrix t.lint_output) (fill_cell_matrix t.int_memory) (fill_cell_matrix t.dint_memory) (fill_cell_matrix t.lint_memory),
    ImageTables_mk_int_input (fill_bit_matrix t.bool_input) (fill_bit_matrix t.bool_output) (fill_cell_matrix t.byte_input) (fill_cell_matrix t.byte_output) (fill_cell_matrix t.int_input) (fill_cell_matrix t.int_output) (fill_cell_matrix t.dint_input) (fill_cell_matrix t.dint_output) (fill_cell_matrix t.lint_input) (fill_cell_matrix t.lint_output) (fill_cell_matrix t.int_memory) (fill_cell_matrix t.dint_memory) (fill_cell_matrix t.lint_memory),
    ImageTables_mk_int_output (fill_bit_matrix t.bool_input) (fill_bit_matrix t.bool_output) (fill_cell_matrix t.byte_input) (fill_cell_matrix t.byte_output) (fill_cell_matrix t.int_input) (fill_cell_matrix t.int_output) (fill_cell_matrix t.dint_input) (fill_cell_matrix t.dint_output) (fill_cell_matrix t.lint_input) (fill_cell_matrix t.lint_output) (fill_cell_matrix t.int_memory) (fill_cell_matrix t.dint_memory) (fill_cell_matrix t.lint_memory),
    ImageTables_mk_dint_input (fill_bit_matrix t.bool_input) (fill_bit_matrix t.bool_output) (fill_cell_matrix t.byte_input) (fill_cell_matrix t.byte_output) (fill_cell_matrix t.int_input) (fill_cell_matrix t.int_output) (fill_cell_matrix t.dint_input) (fill_cell_matrix t.dint_output) (fill_cell_matrix t.lint_input) (fill_cell_matrix t.lint_output) (fill_cell_matrix t.int_memory) (fill_cell_matrix t.dint_memory) (fill_cell_matrix t.lint_memory),
    ImageTables_mk_dint_output (fill_bit_matrix t.bool_input) (fill_bit_matrix t.bool_output) (fill_cell_matrix t.byte_input) (fill_cell_matrix t.byte_output) (fill_cell_matrix t.int_input) (fill_cell_matrix t.int_output) (fill_cell_matrix t.dint_input) (fill_cell_matrix t.dint_output) (fill_cell_matrix t.lint_input) (fill_cell_matrix t.lint_output) (fill_cell_matrix t.int_memory) (fill_cell_matrix t.dint_memory) (fill_cell_matrix t.lint_memory),
    ImageTables_mk_lint_input (fill_bit_matrix t.bool_input) (fill_bit_matrix t.bool_output) (fill_cell_matrix t.byte_input) (fill_cell_matrix t.byte_output) (fill_cell_matrix t.int_input) (fill_cell_matrix t.int_output) (fill_cell_matrix t.dint_input) (fill_cell_matrix t.dint_output) (fill_cell_matrix t.lint_input) (fill_cell_matrix t.lint_output) (fill_cell_matrix t.int_memory) (fill_cell_matrix t.dint_memory) (fill_cell_matrix t.lint_memory),
    ImageTables_mk_lint_output (fill_bit_matrix t.bool_input) (fill_bit_matrix t.bool_output) (fill_cell_matrix t.byte_input) (fill_cell_matrix t.byte_output) (fill_cell_matrix t.int_input) (fill_cell_matrix t.int_output) (fill_cell_matrix t.dint_input) (fill_cell_matrix t.dint_output) (fill_cell_matrix t.lint_input) (fill_cell_matrix t.lint_output) (fill_cell_matrix t.int_memory) (fill_cell_matrix t.dint_memory) (fill_cell_matrix t.lint_memory),
    ImageTables_mk_int_memory (fill_bit_matrix t.bool_input) (fill_bit_matrix t.bool_output) (fill_cell_matrix t.byte_input) (fill_cell_matrix t.byte_output) (fill_cell_matrix t.int_input) (fill_cell_matrix t.int_output) (fill_cell_matrix t.dint_input) (fill_cell_matrix t.dint_output) (fill_cell_matrix t.lint_input) (fill_cell_matrix t.lint_output) (fill_cell_matrix t.int_memory) (fill_cell_matrix t.dint_memory) (fill_cell_matrix t.lint_memory),
    ImageTables_mk_dint_memory (fill_bit_matrix t.bool_input) (fill_bit_matrix t.bool_output) (fill_cell_matrix t.byte_input) (fill_cell_matrix t.byte_output) (fill_cell_matrix t.int_input) (fill_cell_matrix t.int_output) (fill_cell_matrix t.dint_input) (fill_cell_matrix t.dint_output) (fill_cell_matrix t.lint_input) (fill_cell_matrix t.lint_output) (fill_cell_matrix t.int_memory) (fill_cell_matrix t.dint_memory) (fill_cell_matrix t.lint_memory),
    ImageTables_mk_lint_memory (fill_bit_matrix t.bool_input) (fill_bit_matrix t.bool_output) (fill_cell_matrix t.byte_input) (fill_cell_matrix t.byte_output) (fill_cell_matrix t.int_input) (fill_cell_matrix t.int_output) (fill_cell_matrix t.dint_input) (fill_cell_matrix t.dint_output) (fill_cell_matrix t.lint_input) (fill_cell_matrix t.lint_output) (fill_cell_matrix t.int_memory) (fill_cell_matrix t.dint_memory) (fill_cell_matrix t.lint_memory)]
  refine ⟨?_, ?_, ?_, ?_, ?_, ?_, ?_, ?_, ?_, ?_, ?_, ?_, ?_⟩
  · intro i b
    exact ⟨fill_bit_matrix_ptrs t.bool_input i b, fill_bit_matrix_temp t.bool_input i b⟩
  · intro i b
    exact ⟨fill_bit_matrix_ptrs t.bool_output i b, fill_bit_matrix_temp t.bool_output i b⟩
  · intro i
    exact ⟨fill_cell_matrix_ptrs t.byte_input i, fill_cell_matrix_temp t.byte_input i⟩
  · intro i
    exact ⟨fill_cell_matrix_ptrs t.byte_output i, fill_cell_matrix_temp t.byte_output i⟩
  · intro i
    exact ⟨fill_cell_matrix_ptrs t.int_input i, fill_cell_matrix_temp t.int_input i⟩
  · intro i
    exact ⟨fill_cell_matrix_ptrs t.int_output i, fill_cell_matrix_temp t.int_output i⟩
  · intro i
    exact ⟨fill_cell_matrix_ptrs t.dint_input i, fill_cell_matrix_temp t.dint_input i⟩
  · intro i
    exact ⟨fill_cell_matrix_ptrs t.dint_output i, fill_cell_matrix_temp t.dint_output i⟩
  · intro i
    exact ⟨fill_cell_matrix_ptrs t.lint_input i, fill_cell_matrix_temp t.lint_input i⟩
  · intro i
    exact ⟨fill_cell_matrix_ptrs t.lint_output i, fill_cell_matrix_temp t.lint_output i⟩
  · intro i
    exact ⟨fill_cell_matrix_ptrs t.int_memory i, fill_cell_matrix_temp t.int_memory i⟩
  · intro i
    exact ⟨fill_cell_matrix_ptrs t.dint_memory i, fill_cell_matrix_temp t.dint_memory i⟩
  · intro i
    exact ⟨fill_cell_matrix_ptrs t.lint_memory i, fill_cell_matrix_temp t.lint_memory i⟩

lemma fill_tables_ne_none_bool_input (t : ImageTables) :
    ∀ i b, i < BUFFER_SIZE → b < 8 →
      (image_tables_fill_null_pointers t).bool_input.ptrs i b ≠ none := by
  intro i b hi hb
  rw [image_tables_fill_unfold, ImageTables_mk_bool_input]
  exact fill_bit_matrix_ptrs_ne_none _ i b hi hb

lemma fill_tables_ne_none_bool_output (t : ImageTables) :
    ∀ i b, i < BUFFER_SIZE → b < 8 →
      (image_tables_fill_null_pointers t).bool_output.ptrs i b ≠ none := by
  intro i b hi hb
  rw [image_tables_fill_unfold, ImageTables_mk_bool_output]
  exact fill_bit_matrix_ptrs_ne_none _ i b hi hb

lemma fill_tables_ne_none_byte_input (t : ImageTables) :
    ∀ i, i < BUFFER_SIZE →
      (image_tables_fill_null_pointers t).byte_input.ptrs i ≠ none := by
  intro i hi
  rw [image_tables_fill_unfold, ImageTables_mk_byte_input]
  exact fill_cell_matrix_ptrs_ne_none _ i hi

lemma fill_tables_ne_none_byte_output (t : ImageTables) :
    ∀ i, i < BUFFER_SIZE →
      (image_tables_fill_null_pointers t).byte_output.ptrs i ≠ none := by
  intro i hi
  rw [image_tables_fill_unfold, ImageTables_mk_byte_output]
  exact fill_cell_matrix_ptrs_ne_none _ i hi

lemma fill_tables_ne_none_int_input (t : ImageTables) :
    ∀ i, i < BUFFER_SIZE →
      (image_tables_fill_null_pointers t).int_input.ptrs i ≠ none := by
  intro i hi
  rw [image_tables_fill_unfold, ImageTables_mk_int_input]
  exact fill_cell_matrix_ptrs_ne_none _ i hi

lemma fill_tables_ne_none_int_output (t : ImageTables) :
    ∀ i, i < BUFFER_SIZE →
      (image_tables_fill_null_pointers t).int_output.ptrs i ≠ none := by
  intro i hi
  rw [image_tables_fill_unfold, ImageTables_mk_int_output]
  exact fill_cell_matrix_ptrs_ne_none _ i hi

lemma fill_tables_ne_none_dint_input (t : ImageTables) :
    ∀ i, i < BUFFER_SIZE →
      (image_tables_fill_null_pointers t).dint_input.ptrs i ≠ none := by
  intro i hi
  rw [image_tables_fill_unfold, ImageTables_mk_dint_input]
  exact fill_cell_matrix_ptrs_ne_none _ i hi

lemma fill_tables_ne_none_dint_output (t : ImageTables) :
    ∀ i, i < BUFFER_SIZE →
      (image_tables_fill_null_pointers t).dint_output.ptrs i ≠ none := by
  intro i hi
  rw [image_tables_fill_unfold, ImageTables_mk_dint_output]
  exact fill_cell_matrix_ptrs_ne_none _ i hi

lemma fill_tables_ne_none_lint_input (t : ImageTables) :
    ∀ i, i < BUFFER_SIZE →
      (image_tables_fill_null_pointers t).lint_input.ptrs i ≠ none := by
  intro i hi
  rw [image_tables_fill_unfold, ImageTables_mk_lint_input]
  exact fill_cell_matrix_ptrs_ne_none _ i hi

lemma fill_tables_ne_none_lint_output (t : ImageTables) :
    ∀ i, i < BUFFER_SIZE →
      (image_tables_fill_null_pointers t).lint_output.ptrs i ≠ none := by
  intro i hi
  rw [image_tables_fill_unfold, ImageTables_mk_lint_output]
  exact fill_cell_matrix_ptrs_ne_none _ i hi

lemma fill_tables_ne_none_int_memory (t : ImageTables) :
    ∀ i, i < BUFFER_SIZE →
      (image_tables_fill_null_pointers t).int_memory.ptrs i ≠ none := by
  intro i hi
  rw [image_tables_fill_unfold, ImageTables_mk_int_memory]
  exact fill_cell_matrix_ptrs_ne_none _ i hi

lemma fill_tables_ne_none_dint_memory (t : ImageTables) :
    ∀ i, i < BUFFER_SIZE →
      (image_tables_fill_null_pointers t).dint_memory.ptrs i ≠ none := by
  intro i hi
  rw [image_tables_fill_unfold, ImageTables_mk_dint_memory]
  exact fill_cell_matrix_ptrs_ne_none _ i hi

lemma fill_tables_ne_none_lint_memory (t : ImageTables) :
    ∀ i, i < BUFFER_SIZE →
      (image_tables_fill_null_pointers t).lint_memory.ptrs i ≠ none := by
  intro i hi
  rw [image_tables_fill_unfold, ImageTables_mk_lint_memory]
  exact fill_cell_matrix_ptrs_ne_none _ i hi

lemma fill_tables_idempotent (t : ImageTables) :
    image_tables_fill_null_pointers (image_tables_fill_null_pointers t) =
      image_tables_fill_null_pointers t := by
  conv_lhs => rw [image_tables_fill_unfold]
  rw [fill_bit_matrix_complete ((image_tables_fill_null_pointers t).bool_input) (fill_tables_ne_none_bool_input t),
    fill_bit_matrix_complete ((image_tables_fill_null_pointers t).bool_output) (fill_tables_ne_none_bool_output t),
    fill_cell_matrix_complete ((image_tables_fill_null_pointers t).byte_input) (fill_tables_ne_none_byte_input t),
    fill_cell_matrix_complete ((image_tables_fill_null_pointers t).byte_output) (fill_tables_ne_none_byte_output t),
    fill_cell_matrix_complete ((image_tables_fill_null_pointers t).int_input) (fill_tables_ne_none_int_input t),
    fill_cell_matrix_complete ((image_tables_fill_null_pointers t).int_output) (fill_tables_ne_none_int_output t),
    fill_cell_matrix_complete ((image_tables_fill_null_pointers t).dint_input) (fill_tables_ne_none_dint_input t),
    fill_cell_matrix_complete ((image_tables_fill_null_pointers t).dint_output) (fill_tables_ne_none_dint_output t),
    fill_cell_matrix_complete ((image_tables_fill_null_pointers t).lint_input) (fill_tables_ne_none_lint_input t),
    fill_cell_matrix_complete ((image_tables_fill_null_pointers t).lint_output) (fill_tables_ne_none_lint_output t),
    fill_cell_matrix_complete ((image_tables_fill_null_pointers t).int_memory) (fill_tables_ne_none_int_memory t),
    fill_cell_matrix_complete ((image_tables_fill_null_pointers t).dint_memory) (fill_tables_ne_none_dint_memory t),
    fill_cell_matrix_complete ((image_tables_fill_null_pointers t).lint_memory) (fill_tables_ne_none_lint_memory t)]

lemma fill_tables_count_zero (t : ImageTables) :
    image_tables_fill_count (image_tables_fill_null_pointers t) = 0 := by
  rw [image_tables_fill_count]
  rw [fill_bit_count_complete ((image_tables_fill_null_pointers t).bool_input) (fill_tables_ne_none_bool_input t),
    fill_bit_count_complete ((image_tables_fill_null_pointers t).bool_output) (fill_tables_ne_none_bool_output t),
    fill_cell_count_complete ((image_tables_fill_null_pointers t).byte_input) (fill_tables_ne_none_byte_input t),
    fill_cell_count_complete ((image_tables_fill_null_pointers t).byte_output) (fill_tables_ne_none_byte_output t),
    fill_cell_count_complete ((image_tables_fill_null_pointers t).int_input) (fill_tables_ne_none_int_input t),
    fill_cell_count_complete ((image_tables_fill_null_pointers t).int_output) (fill_tables_ne_none_int_output t),
    fill_cell_count_complete ((image_tables_fill_null_pointers t).dint_input) (fill_tables_ne_none_dint_input t),
    fill_cell_count_complete ((image_tables_fill_null_pointers t).dint_output) (fill_tables_ne_none_dint_output t),
    fill_cell_count_complete ((image_tables_fill_null_pointers t).lint_input) (fill_tables_ne_none_lint_input t),
    fill_cell_count_complete ((image_tables_fill_null_pointers t).lint_output) (fill_tables_ne_none_lint_output t),
    fill_cell_count_complete ((image_tables_fill_null_pointers t).int_memory) (fill_tables_ne_none_int_memory t),
    fill_cell_count_complete ((image_tables_fill_null_pointers t).dint_memory) (fill_tables_ne_none_dint_memory t),
    fill_cell_count_complete ((image_tables_fill_null_pointers t).lint_memory) (fill_tables_ne_none_lint_memory t)]

/-- Claim C10: `image_tables_fill_null_pointers` is complete (after one call
every entry of all thirteen matrices is non-null), pointwise exact (each
previously-NULL in-range entry now references a zero-initialized scratch
cell of its own matrix at the same index, and every previously-bound entry
is unchanged), and idempotent (a second call performed immediately after
changes no entry and its logged `filled_count` is zero). -/
theorem claim_C10_fill_complete_idempotent (t : ImageTables) :
    fillComplete (image_tables_fill_null_pointers t) ∧
    fillPointwise t (image_tables_fill_null_pointers t) ∧
    image_tables_fill_null_pointers (image_tables_fill_null_pointers t) =
      image_tables_fill_null_pointers t ∧
    image_tables_fill_count (image_tables_fill_null_pointers t) = 0 :=
  ⟨fill_tables_complete t, fill_tables_pointwise t, fill_tables_idempotent t,
   fill_tables_count_zero t⟩

/-- Claim C1 (code-bug evidence): the scan-loop body of `plc_cycle_thread`
takes the image-table lock, runs `config_run__` and `updateTime`, stores the
heartbeat, releases the lock and updates statistics — but it never invokes
the plugin driver's `cycle_start` / `cycle_end` fan-outs, contradicting the
claim (and the fan-outs' own documentation) that each enabled running
native plugin's hook runs once per cycle under the lock. -/
theorem claim_C1_scan_loop_never_calls_cycle_hooks :
    (∀ tick : Nat,
      plc_cycle_body_trace tick =
        [Ev.scanTimeStart, Ev.mutexTake, Ev.configRun tick, Ev.updateTime,
         Ev.heartbeat, Ev.mutexGive, Ev.scanTimeEnd, Ev.sleepUntil]) ∧
    (∀ tick : Nat,
      (plc_cycle_body_trace tick).count Ev.fanoutCycleStart = 0 ∧
      (plc_cycle_body_trace tick).count Ev.fanoutCycleEnd = 0) ∧
    (plc_cycle_body_trace 0).count Ev.mutexTake = 1 ∧
    (plc_cycle_body_trace 0).count (Ev.configRun 0) = 1 := by
  refine ⟨fun tick => rfl, fun tick => ⟨?_, ?_⟩, by decide, by decide⟩
  · simp [plc_cycle_body_trace, List.count_cons]
  · simp [plc_cycle_body_trace, List.count_cons]

/-- Claim C4 (code-bug evidence): with every required artifact symbol
resolving except `set_trace`, `symbols_init` reports the failure (returns
-1, "Failed to load all symbols"), yet `plc_cycle_thread` discards that
return value and still invokes the artifact's `config_init__` and
`glueVars`; a missing required symbol therefore leads to artifact calls
(and, had `config_init__` itself been the missing symbol, to a call through
a NULL function pointer), not to a clean load failure. -/
theorem claim_C4_missing_symbol_still_calls_artifact :
    (symbols_init missingSetTrace).1 = -1 ∧
    (plc_cycle_thread_init_trace missingSetTrace).count Ev.symbolsInitFail = 1 ∧
    (plc_cycle_thread_init_trace missingSetTrace).count Ev.configInit = 1 ∧
    (plc_cycle_thread_init_trace missingSetTrace).count Ev.glueVars = 1 ∧
    (plc_cycle_thread_init_trace missingSetTrace).count Ev.setBufferPointers = 0 := by
  decide

/-- Claim C2 counterexample: with a program whose `glueVars` binds nothing
(`glue = id`) loaded over the initial all-null tables, `byte_input[0]` is
still NULL after the load path completes, so not every cell reference is
non-null after a successful load. -/
theorem claim_C2_counterexample :
    (plc_load_bind_tables id emptyTables).byte_input.ptrs 0 = none := rfl

/-- Claim C2 amended: a successful load runs `symbols_init` (which calls
`setBufferPointers`), then `config_init__`, then `glueVars`; the load path
never invokes `image_tables_fill_null_pointers`, so exactly the cells bound
by the program's `glueVars` become non-null and all other cells stay NULL. -/
theorem claim_C2_amended_load_does_not_fill (a : ArtifactSymbols)
    (h : symbols_all_present a = true) :
    plc_cycle_thread_init_trace a =
      [Ev.setRealtimePriority, Ev.symbolsInitOk, Ev.setBufferPointers,
       Ev.configInit, Ev.glueVars, Ev.stateSet PLCState.running] ∧
    (plc_cycle_thread_init_trace a).count Ev.fillNullPointers = 0 ∧
    (∀ glue t, plc_load_bind_tables glue t = glue t) := by
  refine ⟨?_, ?_, fun _ _ => rfl⟩
  · simp [plc_cycle_thread_init_trace, symbols_init, h]
  · simp [plc_cycle_thread_init_trace, symbols_init, h, List.count_cons]

/-- Witness for the amended claim C2 at a fully-resolving artifact. -/
theorem claim_C2_amended_witness :
    symbols_all_present allSymbolsPresent = true ∧
    (plc_cycle_thread_init_trace allSymbolsPresent =
      [Ev.setRealtimePriority, Ev.symbolsInitOk, Ev.setBufferPointers,
       Ev.configInit, Ev.glueVars, Ev.stateSet PLCState.running] ∧
     (plc_cycle_thread_init_trace allSymbolsPresent).count
        Ev.fillNullPointers = 0 ∧
     (∀ glue t, plc_load_bind_tables glue t = glue t)) :=
  ⟨by decide, claim_C2_amended_load_does_not_fill allSymbolsPresent (by decide)⟩

/-- Claim C3 counterexample: unloading with `byte_input[0]` bound leaves it
bound — after `unload_plc_program` completes the reference is not null. -/
theorem claim_C3_counterexample :
    (unload_plc_program_tables boundTables).byte_input.ptrs 0 =
      some (PtrTarget.program 0) := rfl

/-- Clearing really nulls every in-range reference (all thirteen
matrices). -/
lemma clear_tables_all_null (t : ImageTables) (i : Fin BUFFER_SIZE)
    (b : Fin 8) :
    (image_tables_clear_null_pointers t).bool_input.ptrs i b = none ∧
    (image_tables_clear_null_pointers t).bool_output.ptrs i b = none ∧
    (image_tables_clear_null_pointers t).byte_input.ptrs i = none ∧
    (image_tables_clear_null_pointers t).byte_output.ptrs i = none ∧
    (image_tables_clear_null_pointers t).int_input.ptrs i = none ∧
    (image_tables_clear_null_pointers t).int_output.ptrs i = none ∧
    (image_tables_clear_null_pointers t).dint_input.ptrs i = none ∧
    (image_tables_clear_null_pointers t).dint_output.ptrs i = none ∧
    (image_tables_clear_null_pointers t).lint_input.ptrs i = none ∧
    (image_tables_clear_null_pointers t).lint_output.ptrs i = none ∧
    (image_tables_clear_null_pointers t).int_memory.ptrs i = none ∧
    (image_tables_clear_null_pointers t).dint_memory.ptrs i = none ∧
    (image_tables_clear_null_pointers t).lint_memory.ptrs i = none := by
  have hi : (i : Nat) < BUFFER_SIZE := i.isLt
  have hb : (b : Nat) < 8 := b.isLt
  simp [image_tables_clear_null_pointers, clear_bit_matrix, clear_cell_matrix,
    hi, hb]

/-- Claim C3 amended: `unload_plc_program` stops the state machine, joins
the scan thread and only then closes the artifact handle, but it never
calls `image_tables_clear_null_pointers`; the image-table references are
left exactly as they were (dangling into the closed artifact), even though
`image_tables_clear_null_pointers`, had it been invoked, nulls every
in-range reference of all thirteen matrices. -/
theorem claim_C3_amended_unload_does_not_clear :
    unload_plc_program_trace =
      [Ev.stateSet PLCState.stopped, Ev.threadJoin, Ev.pluginManagerDestroy] ∧
    unload_plc_program_trace.count Ev.clearNullPointers = 0 ∧
    (∀ t, unload_plc_program_tables t = t) ∧
    (∀ t (i : Fin BUFFER_SIZE),
      (image_tables_clear_null_pointers t).byte_input.ptrs i = none ∧
      (image_tables_clear_null_pointers t).int_memory.ptrs i = none ∧
      (image_tables_clear_null_pointers t).bool_output.ptrs i 0 = none) := by
  refine ⟨rfl, by decide, fun _ => rfl, fun t i => ?_⟩
  have h := clear_tables_all_null t i ⟨0, by omega⟩
  exact ⟨h.2.2.1, h.2.2.2.2.2.2.2.2.2.2.1, h.2.1⟩

/-- Claim C5 counterexample: from STOPPED with no program loaded and a
failing `find_libplc_file`, `plc_set_state(RUNNING)` returns false although
the current state (STOPPED) is not the requested state, and it leaves the
state word at EMPTY — against both "returns false iff current = s" and
"surfaced as false return, no side effects". -/
theorem claim_C5_counterexample :
    (plc_set_state stoppedNoLib PLCState.running).2 = false ∧
    stoppedNoLib.plc_state ≠ PLCState.running ∧
    (plc_set_state stoppedNoLib PLCState.running).1.plc_state =
      PLCState.empty ∧
    (plc_set_state stoppedNoLib PLCState.running).1 ≠ stoppedNoLib := by
  decide

/-- Claim C5 amended: `plc_set_state(s)` returns false iff the current
state already equals s, OR s is RUNNING and one of the discovery / create /
load / thread-spawn steps fails, OR s is STOPPED with no program loaded;
only in the equal-state case is the false return side-effect free (the
world is returned unchanged): the failing RUNNING transitions leave EMPTY
or ERROR in the state word, and the failing STOPPED transition leaves
STOPPED already stored. -/
theorem claim_C5_amended_set_state (w : StateWorld) (s : PLCState) :
    ((plc_set_state w s).2 = false ↔
      (w.plc_state = s ∨
        (s = PLCState.running ∧
          ((w.plc_program = false ∧ (w.find_ok = false ∨ w.create_ok = false)) ∨
            w.load_ok = false ∨ w.thread_ok = false)) ∨
        (s = PLCState.stopped ∧ w.plc_program = false))) ∧
    (w.plc_state = s → plc_set_state w s = (w, false)) := by
  obtain ⟨st, prog, f, c, l, th⟩ := w
  cases st <;> cases s <;> cases prog <;> cases f <;> cases c <;> cases l <;>
    cases th <;> decide

/-- Witness for C5: requesting the current state (STOPPED from STOPPED)
returns false and changes nothing. -/
theorem claim_C5_amended_witness :
    (plc_set_state stoppedLoaded PLCState.stopped).2 = false ∧
    plc_set_state stoppedLoaded PLCState.stopped = (stoppedLoaded, false) :=
  ⟨((claim_C5_amended_set_state stoppedLoaded PLCState.stopped).1).mpr
      (Or.inl rfl),
    (claim_C5_amended_set_state stoppedLoaded PLCState.stopped).2 rfl⟩

/-- Claim C6 counterexample: with a failing enabled plugin in slot 0 and a
healthy enabled plugin (with an init entry point) in slot 1,
`plugin_driver_init` returns -1 having invoked only slot 0's init: slot 1's
init is never attempted, against "init is still attempted for every
remaining enabled plugin". -/
theorem claim_C6_counterexample :
    plugin_driver_init [pFail, pOkNat] = (-1, [0]) ∧
    pOkNat.enabled = true ∧ pOkNat.has_init = true ∧
    (plugin_driver_init [pFail, pOkNat]).2.count 1 = 0 := by
  decide

lemma plugin_driver_init_from_fail (pre post : List PluginInst)
    (pf : PluginInst) (idx : Nat)
    (hpre : ∀ p ∈ pre, p.enabled = true → p.has_init = true →
      p.args_ok = true ∧ p.init_ok = true)
    (he : pf.enabled = true) (hh : pf.has_init = true)
    (ha : pf.args_ok = true) (hf : pf.init_ok = false) :
    plugin_driver_init_from idx (pre ++ pf :: post) =
      (-1, initedIdx idx pre ++ [idx + pre.length]) := by
  induction pre generalizing idx with
  | nil =>
    cases htype : pf.type <;>
      simp [plugin_driver_init_from, initedIdx, he, hh, ha, hf, htype]
  | cons p pre ih =>
    have hp := hpre p (List.mem_cons_self p pre)
    have hpre' : ∀ q ∈ pre, q.enabled = true → q.has_init = true →
        q.args_ok = true ∧ q.init_ok = true :=
      fun q hq => hpre q (List.mem_cons_of_mem p hq)
    have harith : idx + (pre.length + 1) = (idx + 1) + pre.length := by omega
    cases hpe : p.enabled with
    | false =>
      simp [plugin_driver_init_from, initedIdx, hpe, harith,
        ih (idx + 1) hpre']
    | true =>
      cases hph : p.has_init with
      | false =>
        simp [plugin_driver_init_from, initedIdx, hpe, hph, harith,
          ih (idx + 1) hpre']
      | true =>
        obtain ⟨hpa, hpi⟩ := hp hpe hph
        cases htype : p.type <;>
          simp [plugin_driver_init_from, initedIdx, hpe, hph, hpa, hpi,
            htype, harith, ih (idx + 1) hpre']

/-- Claim C6 amended: during `plugin_driver_init`, for each enabled plugin
with an init entry point the driver builds a runtime-args handle and calls
that plugin's init, in slot order — but a failing init call is NOT isolated
to that plugin: the loop returns -1 immediately, so init is never attempted
for any later plugin.  With every plugin before the failing slot healthy,
the invoked-init list is exactly the healthy prefix's enabled slots
followed by the failing slot itself, and nothing after it. -/
theorem claim_C6_amended_init_halts (pre post : List PluginInst)
    (pf : PluginInst)
    (hpre : ∀ p ∈ pre, p.enabled = true → p.has_init = true →
      p.args_ok = true ∧ p.init_ok = true)
    (he : pf.enabled = true) (hh : pf.has_init = true)
    (ha : pf.args_ok = true) (hf : pf.init_ok = false) :
    plugin_driver_init (pre ++ pf :: post) =
      (-1, initedIdx 0 pre ++ [pre.length]) := by
  have h := plugin_driver_init_from_fail pre post pf 0 hpre he hh ha hf
  simpa [plugin_driver_init] using h

/-- Witness for C6: a healthy plugin, then the failing plugin, then another
healthy plugin; init runs for slots 0 and 1 only and the call returns
-1. -/
theorem claim_C6_amended_witness :
    ((∀ p ∈ [pOkNat], p.enabled = true → p.has_init = true →
        p.args_ok = true ∧ p.init_ok = true) ∧
      pFail.enabled = true ∧ pFail.has_init = true ∧
      pFail.args_ok = true ∧ pFail.init_ok = false) ∧
    plugin_driver_init ([pOkNat] ++ pFail :: [pOkNat]) =
      (-1, initedIdx 0 [pOkNat] ++ [List.length [pOkNat]]) :=
  ⟨⟨by decide, rfl, rfl, rfl, rfl⟩,
    claim_C6_amended_init_halts [pOkNat] [pOkNat] pFail (by decide)
      rfl rfl rfl rfl⟩

lemma takeWhile_all_eq (p : Char → Bool) (f : List Char)
    (hf : ∀ x ∈ f, p x = true) : f.takeWhile p = f := by
  induction f with
  | nil => rfl
  | cons a f ih =>
    have ha := hf a (List.mem_cons_self a f)
    simp [List.takeWhile_cons, ha,
      ih (fun x hx => hf x (List.mem_cons_of_mem a hx))]

lemma dropWhile_all_eq (p : Char → Bool) (f : List Char)
    (hf : ∀ x ∈ f, p x = true) : f.dropWhile p = [] := by
  induction f with
  | nil => rfl
  | cons a f ih =>
    have ha := hf a (List.mem_cons_self a f)
    simp [List.dropWhile_cons, ha,
      ih (fun x hx => hf x (List.mem_cons_of_mem a hx))]

lemma takeWhile_append_eq (p : Char → Bool) (f : List Char) (c : Char)
    (rest : List Char) (hf : ∀ x ∈ f, p x = true) (hc : p c = false) :
    (f ++ c :: rest).takeWhile p = f := by
  induction f with
  | nil => simp [List.takeWhile_cons, hc]
  | cons a f ih =>
    have ha := hf a (List.mem_cons_self a f)
    simp [List.takeWhile_cons, ha,
      ih (fun x hx => hf x (List.mem_cons_of_mem a hx))]

lemma dropWhile_append_eq (p : Char → Bool) (f : List Char) (c : Char)
    (rest : List Char) (hf : ∀ x ∈ f, p x = true) (hc : p c = false) :
    (f ++ c :: rest).dropWhile p = c :: rest := by
  induction f with
  | nil => simp [List.dropWhile_cons, hc]
  | cons a f ih =>
    have ha := hf a (List.mem_cons_self a f)
    simp [List.dropWhile_cons, ha,
      ih (fun x hx => hf x (List.mem_cons_of_mem a hx))]

lemma strtok1_split (isDelim : Char → Bool) (f : List Char) (del : Char)
    (rest : List Char) (hf : f ≠ [])
    (hfd : ∀ x ∈ f, isDelim x = false) (hdel : isDelim del = true) :
    strtok1 isDelim (f ++ del :: rest) = some (f, rest) := by
  cases f with
  | nil => exact absurd rfl hf
  | cons c fs =>
    have hc := hfd c (List.mem_cons_self c fs)
    have hall : ∀ x ∈ c :: fs, (fun x => !isDelim x) x = true := by
      intro x hx
      simp [hfd x hx]
    have ht := takeWhile_append_eq (fun x => !isDelim x) (c :: fs) del rest
      hall (by simp [hdel])
    have hd2 := dropWhile_append_eq (fun x => !isDelim x) (c :: fs) del rest
      hall (by simp [hdel])
    simp only [List.cons_append] at ht hd2
    simp [strtok1, List.dropWhile_cons, hc, ht, hd2]

lemma strtok1_last (isDelim : Char → Bool) (f : List Char) (hf : f ≠ [])
    (hfd : ∀ x ∈ f, isDelim x = false) :
    strtok1 isDelim f = some (f, []) := by
  cases f with
  | nil => exact absurd rfl hf
  | cons c fs =>
    have hc := hfd c (List.mem_cons_self c fs)
    have hall : ∀ x ∈ c :: fs, (fun x => !isDelim x) x = true := by
      intro x hx
      simp [hfd x hx]
    have ht := takeWhile_all_eq (fun x => !isDelim x) (c :: fs) hall
    have hd2 := dropWhile_all_eq (fun x => !isDelim x) (c :: fs) hall
    simp [strtok1, List.dropWhile_cons, hc, ht, hd2]

lemma remove_newline_append_nl (s : List Char) :
    remove_newline (s ++ ['\n']) = remove_newline s := by
  have h1 : isTrailWS '\n' = true := by decide
  simp [remove_newline, List.reverse_append, List.dropWhile_cons, h1]

lemma remove_take_nl (s : List Char) (h : s.length ≤ 255) :
    remove_newline ((s ++ ['\n']).take 255) = remove_newline s := by
  rcases Nat.lt_or_ge s.length 255 with hlt | hge
  · have hlen : (s ++ ['\n']).length ≤ 255 := by
      simp
      omega
    rw [List.take_of_length_le hlen, remove_newline_append_nl]
  · have h255 : s.length = 255 := Nat.le_antisymm h hge
    rw [List.take_append_of_le_length (by omega),
      List.take_of_length_le (by omega)]

lemma remove_newline_eq_strip (s : List Char) :
    remove_newline s = stripTrailingWS s := rfl

lemma char_digit_facts (c : Char) (h : c.isDigit = true) :
    isSpaceChar c = false ∧ c ≠ '-' ∧ c ≠ '+' ∧ c ≠ ',' ∧ c ≠ '\n' ∧
      c ≠ '\r' := by
  refine ⟨?_, ?_, ?_, ?_, ?_, ?_⟩
  · cases hs : isSpaceChar c
    · rfl
    · exfalso
      have hs' : c = ' ' ∨ c = '\t' ∨ c = '\n' ∨ c = '\x0b' ∨ c = '\x0c' ∨
          c = '\r' := by
        simpa [isSpaceChar] using hs
      rcases hs' with h1 | h1 | h1 | h1 | h1 | h1 <;> subst h1 <;>
        exact absurd h (by decide)
  · intro he
    subst he
    exact absurd h (by decide)
  · intro he
    subst he
    exact absurd h (by decide)
  · intro he
    subst he
    exact absurd h (by decide)
  · intro he
    subst he
    exact absurd h (by decide)
  · intro he
    subst he
    exact absurd h (by decide)

lemma atoi_digits (s : List Char) (hne : s ≠ [])
    (hd : ∀ c ∈ s, c.isDigit = true) :
    atoi s = Int.ofNat (natOfDigits s) := by
  cases s with
  | nil => exact absurd rfl hne
  | cons c rest =>
    have hc := hd c (List.mem_cons_self c rest)
    obtain ⟨hs, hm, hp, -, -, -⟩ := char_digit_facts c hc
    simp [atoi, natOfDigits, List.dropWhile_cons, hs, hm, hp]

lemma legalTextField_props (n : Nat) (s : List Char)
    (h : legalTextField n s = true) :
    s ≠ [] ∧ s.length ≤ n ∧ ∀ c ∈ s, c ≠ ',' ∧ c ≠ '\n' ∧ c ≠ '\r' := by
  simp only [legalTextField, Bool.and_eq_true, decide_eq_true_eq,
    List.all_eq_true] at h
  exact ⟨h.1.1, h.1.2, h.2⟩

lemma parse_mkLine (d : RawDescriptor) (h : legalDescriptor d = true) :
    parse_plugin_line (mkLine d) = some (expectedConfig d) := by
  simp only [legalDescriptor, Bool.and_eq_true, decide_eq_true_eq,
    List.all_eq_true] at h
  obtain ⟨⟨⟨⟨⟨⟨⟨⟨⟨⟨⟨hname, hhash⟩, hpath⟩, henne⟩, hend⟩, htyne⟩, htyd⟩,
    hcfg⟩, hvenv⟩, -⟩, -⟩, -⟩ := h
  obtain ⟨hn1, hn2, hn3⟩ := legalTextField_props 63 d.name hname
  obtain ⟨hp1, hp2, hp3⟩ := legalTextField_props 255 d.path hpath
  obtain ⟨hc1, hc2, hc3⟩ := legalTextField_props 255 d.cfg hcfg
  have hmainOf : ∀ (s : List Char),
      (∀ c ∈ s, c ≠ ',' ∧ c ≠ '\n' ∧ c ≠ '\r') →
      ∀ x ∈ s, isMainDelim x = false := by
    intro s hs x hx
    simp [isMainDelim, (hs x hx).1]
  have hdigMain : ∀ (s : List Char), (∀ c ∈ s, c.isDigit = true) →
      ∀ x ∈ s, isMainDelim x = false := by
    intro s hs x hx
    obtain ⟨-, -, -, h4, -, -⟩ := char_digit_facts x (hs x hx)
    simp [isMainDelim, h4]
  have hcomma : isMainDelim ',' = true := by decide
  rcases hv : d.venv with _ | v
  · have s1 := strtok1_split isMainDelim d.name ','
      (d.path ++ ',' :: (d.en ++ ',' :: (d.ty ++ ',' :: (d.cfg ++ ['\n']))))
      hn1 (hmainOf d.name hn3) hcomma
    have s2 := strtok1_split isMainDelim d.path ','
      (d.en ++ ',' :: (d.ty ++ ',' :: (d.cfg ++ ['\n'])))
      hp1 (hmainOf d.path hp3) hcomma
    have s3 := strtok1_split isMainDelim d.en ','
      (d.ty ++ ',' :: (d.cfg ++ ['\n'])) henne (hdigMain d.en hend) hcomma
    have s4 := strtok1_split isMainDelim d.ty ','
      (d.cfg ++ ['\n']) htyne (hdigMain d.ty htyd) hcomma
    have hcfgnl : ∀ x ∈ d.cfg ++ ['\n'], isMainDelim x = false := by
      intro x hx
      rcases List.mem_append.mp hx with hx | hx
      · exact (hmainOf d.cfg hc3) x hx
      · simp at hx
        subst hx
        decide
    have s5 := strtok1_last isMainDelim (d.cfg ++ ['\n']) (by simp) hcfgnl
    have s6 : strtok1 isLastDelim ([] : List Char) = none := rfl
    simp only [mkLine, mkFront, hv, List.append_assoc, List.cons_append,
      List.append_nil]
    simp only [parse_plugin_line, s1, s2, s3, s4, s5, s6]
    simp [expectedConfig, hv, List.take_of_length_le hn2,
      List.take_of_length_le hp2, remove_take_nl d.cfg hc2,
      remove_newline_eq_strip, atoi_digits d.en henne hend,
      atoi_digits d.ty htyne htyd]
  · simp only [hv] at hvenv
    obtain ⟨hv1, hv2, hv3⟩ := legalTextField_props 255 v hvenv
    have s1 := strtok1_split isMainDelim d.name ','
      (d.path ++ ',' :: (d.en ++ ',' :: (d.ty ++ ',' ::
        (d.cfg ++ ',' :: (v ++ ['\n'])))))
      hn1 (hmainOf d.name hn3) hcomma
    have s2 := strtok1_split isMainDelim d.path ','
      (d.en ++ ',' :: (d.ty ++ ',' :: (d.cfg ++ ',' :: (v ++ ['\n']))))
      hp1 (hmainOf d.path hp3) hcomma
    have s3 := strtok1_split isMainDelim d.en ','
      (d.ty ++ ',' :: (d.cfg ++ ',' :: (v ++ ['\n'])))
      henne (hdigMain d.en hend) hcomma
    have s4 := strtok1_split isMainDelim d.ty ','
      (d.cfg ++ ',' :: (v ++ ['\n'])) htyne (hdigMain d.ty htyd) hcomma
    have s5 := strtok1_split isMainDelim d.cfg ','
      (v ++ ['\n']) hc1 (hmainOf d.cfg hc3) hcomma
    have hlastv : ∀ x ∈ v, isLastDelim x = false := by
      intro x hx
      simp [isLastDelim, (hv3 x hx).1, (hv3 x hx).2.1, (hv3 x hx).2.2]
    have s6 := strtok1_split isLastDelim v '\n' [] hv1 hlastv (by decide)
    simp only [mkLine, mkFront, hv, List.append_assoc, List.cons_append,
      List.append_nil]
    simp only [parse_plugin_line, s1, s2, s3, s4, s5, s6]
    simp [expectedConfig, hv, List.take_of_length_le hn2,
      List.take_of_length_le hp2, List.take_of_length_le hc2,
      List.take_of_length_le hv2, remove_newline_eq_strip,
      atoi_digits d.en henne hend, atoi_digits d.ty htyne htyd]

lemma mkLine_head (d : RawDescriptor) (hn : d.name ≠ []) :
    (mkLine d).head? = d.name.head? := by
  cases hname : d.name with
  | nil => exact absurd hname hn
  | cons c n => simp [mkLine, mkFront, hname]

lemma parse_config_go_items (items : List LineItem) :
    ∀ (rem : Nat), (∀ it ∈ items, legalItem it = true) →
    (descriptorsOf items).length ≤ rem →
    parse_plugin_config_go (items.map lineOfItem) rem =
      (descriptorsOf items).map expectedConfig := by
  induction items with
  | nil =>
    intro rem _ _
    rfl
  | cons it rest ih =>
    intro rem hleg hk
    have hres : ∀ x ∈ rest, legalItem x = true :=
      fun x hx => hleg x (List.mem_cons_of_mem it hx)
    cases it with
    | comment front =>
      have hcm := hleg _ (List.mem_cons_self _ _)
      simp only [legalItem, Bool.and_eq_true, decide_eq_true_eq] at hcm
      obtain ⟨⟨hhead, -⟩, -⟩ := hcm
      have hl' : (front ++ ['\n']).head? = some '#' ∨
          (front ++ ['\n']).head? = some '\n' ∨
          (front ++ ['\n']).head? = some '\r' := by
        rcases hhead with h0 | h0 | h0
        · subst h0
          simp
        · cases front with
          | nil => simp at h0
          | cons c f =>
            simp only [List.head?_cons, Option.some.injEq] at h0
            subst h0
            simp
        · cases front with
          | nil => simp at h0
          | cons c f =>
            simp only [List.head?_cons, Option.some.injEq] at h0
            subst h0
            simp
      rcases Nat.eq_zero_or_pos rem with hrem | hrem
      · subst hrem
        have hnil : descriptorsOf (LineItem.comment front :: rest) = [] :=
          List.length_eq_zero.mp (Nat.le_zero.mp hk)
        simp [parse_plugin_config_go, lineOfItem, hnil]
      · have hzz : ¬rem = 0 := by omega
        have hk' : (descriptorsOf rest).length ≤ rem := by
          simpa [descriptorsOf] using hk
        simp only [List.map_cons, lineOfItem, parse_plugin_config_go]
        rw [if_neg hzz, if_pos hl']
        simpa [descriptorsOf] using ih rem hres hk'
    | descriptor d =>
      have hd : legalDescriptor d = true := by
        simpa [legalItem] using hleg _ (List.mem_cons_self _ _)
      have hk1 : (descriptorsOf rest).length + 1 ≤ rem := by
        simpa [descriptorsOf] using hk
      have hzz : ¬rem = 0 := by omega
      have hdp := hd
      simp only [legalDescriptor, Bool.and_eq_true, decide_eq_true_eq,
        List.all_eq_true] at hdp
      obtain ⟨⟨⟨⟨⟨⟨⟨⟨⟨⟨⟨hname, hhash⟩, -⟩, -⟩, -⟩, -⟩, -⟩, -⟩, -⟩, -⟩,
        -⟩, -⟩ := hdp
      obtain ⟨hn1, hn2, hn3⟩ := legalTextField_props 63 d.name hname
      have hskip : ¬((mkLine d).head? = some '#' ∨
          (mkLine d).head? = some '\n' ∨ (mkLine d).head? = some '\r') := by
        rw [mkLine_head d hn1]
        cases hname : d.name with
        | nil => exact absurd hname hn1
        | cons c n =>
          have hc := hn3 c (by rw [hname]; exact List.mem_cons_self c n)
          have hch : c ≠ '#' := by
            intro he
            exact hhash (by rw [hname, he]; rfl)
          simp [hname, hch, hc.2.1, hc.2.2]
      simp [parse_plugin_config_go, lineOfItem, hzz, hskip,
        parse_mkLine d hd, descriptorsOf, ih (rem - 1) hres (by omega)]

lemma takeChunk_line (front rest : List Char) (hfl : front.length ≤ 510)
    (hnl : '\n' ∉ front) :
    takeChunk (front ++ '\n' :: rest) = front ++ ['\n'] ∧
    dropChunk (front ++ '\n' :: rest) = rest := by
  have hall : ∀ x ∈ front, (fun c => !(c == '\n')) x = true := by
    intro x hx
    have hxne : x ≠ '\n' := by
      intro he
      exact hnl (he ▸ hx)
    simp [hxne]
  have ht := takeWhile_append_eq (fun c => !(c == '\n')) front '\n' rest
    hall (by simp)
  have hlt : front.length < 511 := by omega
  have hsplit : front ++ '\n' :: rest = (front ++ ['\n']) ++ rest := by
    simp
  constructor
  · simp only [takeChunk, ht, hlt, if_pos]
    rw [hsplit]
    exact List.take_left' (by simp)
  · simp only [dropChunk, ht, hlt, if_pos]
    rw [hsplit]
    exact List.drop_left' (by simp)

lemma mkFront_line (d : RawDescriptor) (h : legalDescriptor d = true) :
    '\n' ∉ mkFront d ∧ (mkFront d).length ≤ 510 := by
  have hdp := h
  simp only [legalDescriptor, Bool.and_eq_true, decide_eq_true_eq,
    List.all_eq_true] at hdp
  obtain ⟨⟨⟨⟨⟨⟨⟨⟨⟨⟨⟨hname, -⟩, hpath⟩, -⟩, hend⟩, -⟩, htyd⟩, hcfg⟩,
    hvenv⟩, -⟩, -⟩, hfit⟩ := hdp
  obtain ⟨-, -, hn3⟩ := legalTextField_props 63 d.name hname
  obtain ⟨-, -, hp3⟩ := legalTextField_props 255 d.path hpath
  obtain ⟨-, -, hc3⟩ := legalTextField_props 255 d.cfg hcfg
  refine ⟨?_, hfit⟩
  intro hmem
  rcases hv : d.venv with _ | v
  · simp only [mkFront, hv, List.append_nil, List.mem_append,
      List.mem_cons] at hmem
    rcases hmem with h0 | h0 | h0 | h0 | h0 | h0 | h0 | h0 | h0
    · exact (hn3 _ h0).2.1 rfl
    · exact absurd h0 (by decide)
    · exact (hp3 _ h0).2.1 rfl
    · exact absurd h0 (by decide)
    · exact (char_digit_facts _ (hend _ h0)).2.2.2.2.1 rfl
    · exact absurd h0 (by decide)
    · exact (char_digit_facts _ (htyd _ h0)).2.2.2.2.1 rfl
    · exact absurd h0 (by decide)
    · exact (hc3 _ h0).2.1 rfl
  · simp only [hv] at hvenv
    obtain ⟨-, -, hvv3⟩ := legalTextField_props 255 v hvenv
    simp only [mkFront, hv, List.mem_append, List.mem_cons] at hmem
    rcases hmem with h0 | h0 | h0 | h0 | h0 | h0 | h0 | h0 | h0 | h0 | h0
    · exact (hn3 _ h0).2.1 rfl
    · exact absurd h0 (by decide)
    · exact (hp3 _ h0).2.1 rfl
    · exact absurd h0 (by decide)
    · exact (char_digit_facts _ (hend _ h0)).2.2.2.2.1 rfl
    · exact absurd h0 (by decide)
    · exact (char_digit_facts _ (htyd _ h0)).2.2.2.2.1 rfl
    · exact absurd h0 (by decide)
    · exact (hc3 _ h0).2.1 rfl
    · exact absurd h0 (by decide)
    · exact (hvv3 _ h0).2.1 rfl

lemma lineOfItem_decomp (it : LineItem) (h : legalItem it = true) :
    ∃ front, lineOfItem it = front ++ ['\n'] ∧ front.length ≤ 510 ∧
      '\n' ∉ front := by
  cases it with
  | comment front =>
    simp only [legalItem, Bool.and_eq_true, decide_eq_true_eq] at h
    exact ⟨front, rfl, h.1.2, h.2⟩
  | descriptor d =>
    have hm := mkFront_line d (by simpa [legalItem] using h)
    exact ⟨mkFront d, rfl, hm.2, hm.1⟩

lemma fgetsChunks_items (items : List LineItem) : ∀ (fuel : Nat),
    ((items.map lineOfItem).flatten).length ≤ fuel →
    (∀ it ∈ items, legalItem it = true) →
    fgetsChunksGo fuel ((items.map lineOfItem).flatten) =
      items.map lineOfItem := by
  induction items with
  | nil =>
    intro fuel _ _
    cases fuel <;> rfl
  | cons it rest ih =>
    intro fuel hlen hleg
    obtain ⟨front, hfl, hf510, hfnl⟩ :=
      lineOfItem_decomp it (hleg it (List.mem_cons_self _ _))
    have hres : ∀ x ∈ rest, legalItem x = true :=
      fun x hx => hleg x (List.mem_cons_of_mem it hx)
    obtain ⟨tc, dc⟩ := takeChunk_line front
      ((rest.map lineOfItem).flatten) hf510 hfnl
    have hflat : ((it :: rest).map lineOfItem).flatten =
        front ++ '\n' :: ((rest.map lineOfItem).flatten) := by
      simp [hfl]
    rw [hflat] at hlen ⊢
    rw [List.length_append, List.length_cons] at hlen
    cases fuel with
    | zero =>
      exfalso
      omega
    | succ fuel =>
      have hie : (front ++ '\n' ::
          ((rest.map lineOfItem).flatten)).isEmpty = false := by
        simp
      have hlen' : ((rest.map lineOfItem).flatten).length ≤ fuel := by
        omega
      simp only [fgetsChunksGo, hie, Bool.false_eq_true, if_false, tc, dc]
      rw [← hfl]
      simp [ih fuel hlen' hres]

/-- Claim C7 counterexample: the legal line "a, b,1,1,c" parses, but the
path field keeps its leading space — `remove_newline` trims only trailing
whitespace, so the stored field differs from the spec's
surrounding-trimmed textual field "b". -/
theorem claim_C7_counterexample :
    parse_plugin_config cexLine 16 =
      [⟨['a'], [' ', 'b'], 1, 1, ['c'], []⟩] ∧
    trimSurrounding [' ', 'b'] = ['b'] ∧
    (parse_plugin_config cexLine 16).map plugin_config_t.path ≠
      [trimSurrounding [' ', 'b']] := by
  decide

/-- Claim C7 amended: for any legal descriptor file with at most 16
descriptor lines — fields nonempty, comma- and CR/LF-free, within the
63 / 255 length bounds, numeric fields digit-only and short enough for a
C int, the name not opening a comment, and every line (comment lines
included) short enough for the 512-byte fgets buffer —
`parse_plugin_config` on the file's raw content returns exactly the
descriptors of the non-skipped lines in order, each text field equal to
the textual field after trimming TRAILING whitespace and CR/LF only
(leading whitespace is kept), numeric fields read as decimal, and a
missing venv stored as the empty string; comment and blank lines are
ignored. -/
theorem claim_C7_amended_round_trip (items : List LineItem)
    (hleg : ∀ it ∈ items, legalItem it = true)
    (hk : (descriptorsOf items).length ≤ 16) :
    parse_plugin_config ((items.map lineOfItem).flatten) 16 =
      (descriptorsOf items).map expectedConfig := by
  rw [parse_plugin_config, fgetsChunks,
    fgetsChunks_items items ((items.map lineOfItem).flatten).length
      (Nat.le_refl _) hleg]
  exact parse_config_go_items items 16 hleg hk

/-- Witness for C7: the raw content of a comment line followed by the
descriptor line `p,./x.so,1,1,c.cfg` parses to that one descriptor. -/
theorem claim_C7_amended_witness :
    ((∀ it ∈ exItems, legalItem it = true) ∧
      (descriptorsOf exItems).length ≤ 16) ∧
    parse_plugin_config ((exItems.map lineOfItem).flatten) 16 =
      (descriptorsOf exItems).map expectedConfig :=
  ⟨⟨by decide, by decide⟩,
    claim_C7_amended_round_trip exItems (by decide) (by decide)⟩

lemma runCycles_overruns (T_ns : Nat) (ps : List (Nat × Nat)) :
    ∀ (st : ScanState), 0 < st.scan_count →
    st.expected_start_us + ps.length * (T_ns / 1000) < U64 →
    (runCycles T_ns ps st).overruns =
      st.overruns +
        Int.ofNat (overrunsFrom (T_ns / 1000) ps st.expected_start_us) := by
  induction ps with
  | nil =>
    intro st _ _
    simp [runCycles, overrunsFrom]
  | cons p rest ih =>
    intro st hc hbound
    obtain ⟨s, e⟩ := p
    have hcne : ¬st.scan_count = 0 := by omega
    have hsm : (rest.length + 1) * (T_ns / 1000) =
        rest.length * (T_ns / 1000) + T_ns / 1000 := by ring
    simp only [List.length_cons, hsm] at hbound
    obtain ⟨A, hA⟩ : ∃ A, rest.length * (T_ns / 1000) = A := ⟨_, rfl⟩
    rw [hA] at hbound
    have hTle : st.expected_start_us + T_ns / 1000 < U64 := by omega
    have hmod : (st.expected_start_us + T_ns / 1000) % U64 =
        st.expected_start_us + T_ns / 1000 := Nat.mod_eq_of_lt hTle
    rw [runCycles]
    by_cases hcmp : st.expected_start_us + T_ns / 1000 < e
    · have hend : scan_cycle_time_end e (scan_cycle_time_start T_ns s st) =
          ⟨st.expected_start_us + T_ns / 1000, s, st.scan_count + 1,
           st.overruns + 1⟩ := by
        simp [scan_cycle_time_start, scan_cycle_time_end, hcne, hmod, hcmp]
      rw [hend,
        ih ⟨st.expected_start_us + T_ns / 1000, s, st.scan_count + 1,
          st.overruns + 1⟩ (by simp; omega) (by simp; omega)]
      simp [overrunsFrom, hcmp]
      omega
    · have hend : scan_cycle_time_end e (scan_cycle_time_start T_ns s st) =
          ⟨st.expected_start_us + T_ns / 1000, s, st.scan_count + 1,
           st.overruns⟩ := by
        simp [scan_cycle_time_start, scan_cycle_time_end, hcne, hmod, hcmp]
      rw [hend,
        ih ⟨st.expected_start_us + T_ns / 1000, s, st.scan_count + 1,
          st.overruns⟩ (by simp; omega) (by simp; omega)]
      simp [overrunsFrom, hcmp]

/-- Claim C8: over any run of cycles with observed start/end times, the
overruns counter ends at exactly the number of cycles whose end time
exceeds that cycle's expected start plus the (microsecond) tick period
T/1000 — where cycle 1's expected start is its observed start and each
next expected start is the previous expected start plus the period —
provided the expected-start accumulation and the end times stay below
2^64 (no uint64 wrap). -/
theorem claim_C8_overruns_exact (T_ns s1 e1 : Nat) (rest : List (Nat × Nat))
    (hbound : s1 + (rest.length + 1) * (T_ns / 1000) < U64) :
    (runCycles T_ns ((s1, e1) :: rest) initScanState).overruns =
      Int.ofNat (overrunsFrom (T_ns / 1000) ((s1, e1) :: rest) s1) := by
  have hsm : (rest.length + 1) * (T_ns / 1000) =
      rest.length * (T_ns / 1000) + T_ns / 1000 := by ring
  rw [hsm] at hbound
  obtain ⟨A, hA⟩ : ∃ A, rest.length * (T_ns / 1000) = A := ⟨_, rfl⟩
  rw [hA] at hbound
  have hTle : s1 + T_ns / 1000 < U64 := by omega
  have hmod : (s1 + T_ns / 1000) % U64 = s1 + T_ns / 1000 :=
    Nat.mod_eq_of_lt hTle
  rw [runCycles]
  by_cases hcmp : s1 + T_ns / 1000 < e1
  · have hend : scan_cycle_time_end e1
        (scan_cycle_time_start T_ns s1 initScanState) =
        ⟨s1 + T_ns / 1000, s1, 1, 1⟩ := by
      simp [initScanState, scan_cycle_time_start, scan_cycle_time_end,
        hmod, hcmp]
    rw [hend, runCycles_overruns T_ns rest ⟨s1 + T_ns / 1000, s1, 1, 1⟩
      (by simp) (by simp; omega)]
    simp [overrunsFrom, hcmp]
  · have hend : scan_cycle_time_end e1
        (scan_cycle_time_start T_ns s1 initScanState) =
        ⟨s1 + T_ns / 1000, s1, 1, 0⟩ := by
      simp [initScanState, scan_cycle_time_start, scan_cycle_time_end,
        hmod, hcmp]
    rw [hend, runCycles_overruns T_ns rest ⟨s1 + T_ns / 1000, s1, 1, 0⟩
      (by simp) (by simp; omega)]
    simp [overrunsFrom, hcmp]

/-- Witness for C8: period 1 ms (1000000 ns), cycles (0, 1500) and
(2000, 2500): both ends miss their deadlines 1000 and 2000, so overruns
is 2. -/
theorem claim_C8_witness :
    (0 + ([((2000 : Nat), (2500 : Nat))].length + 1) * (1000000 / 1000) <
      U64) ∧
    (runCycles 1000000 [(0, 1500), (2000, 2500)] initScanState).overruns =
      Int.ofNat (overrunsFrom 1000 [(0, 1500), (2000, 2500)] 0) ∧
    (runCycles 1000000 [(0, 1500), (2000, 2500)] initScanState).overruns =
      2 :=
  ⟨by decide,
    claim_C8_overruns_exact 1000000 0 1500 [(2000, 2500)] (by decide),
    by decide⟩

lemma getLastD_cons (l : List Nat) : ∀ (a x : Nat),
    ((a :: l).getLast?.getD x) = l.getLast?.getD a := by
  induction l with
  | nil =>
    intro a x
    rfl
  | cons b t ih =>
    intro a x
    rw [List.getLast?_cons_cons, ih b x, ih b a]

lemma traceLast_eq (size : Nat → Nat) (fuel : Nat) : ∀ (varidx rs lv : Nat),
    traceLast size fuel varidx rs lv =
      (includedVars size fuel varidx rs).getLast?.getD lv := by
  induction fuel with
  | zero =>
    intro varidx rs lv
    rfl
  | succ fuel ih =>
    intro varidx rs lv
    by_cases hc : rs + 10 + size varidx ≤ 4096
    · simp [traceLast, includedVars, hc, ih (varidx + 1) (rs + size varidx),
        getLastD_cons]
    · simp [traceLast, includedVars, hc]

lemma traceSize_eq (size : Nat → Nat) (fuel : Nat) : ∀ (varidx rs : Nat),
    traceSize size fuel varidx rs =
      rs + ((includedVars size fuel varidx rs).map size).sum := by
  induction fuel with
  | zero =>
    intro varidx rs
    simp [traceSize, includedVars]
  | succ fuel ih =>
    intro varidx rs
    by_cases hc : rs + 10 + size varidx ≤ 4096
    · simp [traceSize, includedVars, hc, ih (varidx + 1) (rs + size varidx)]
      omega
    · simp [traceSize, includedVars, hc]

lemma tracePayload_eq (size : Nat → Nat) (value : Nat → List Nat)
    (fuel : Nat) : ∀ (varidx rs : Nat),
    tracePayload size value fuel varidx rs =
      (includedVars size fuel varidx rs).flatMap value := by
  induction fuel with
  | zero =>
    intro varidx rs
    simp [tracePayload, includedVars]
  | succ fuel ih =>
    intro varidx rs
    by_cases hc : rs + 10 + size varidx ≤ 4096
    · simp [tracePayload, includedVars, hc, ih (varidx + 1) (rs + size varidx)]
    · simp [tracePayload, includedVars, hc]

lemma includedVars_bound (size : Nat → Nat) (fuel : Nat) :
    ∀ (varidx rs : Nat), rs + 10 ≤ 4096 →
    rs + ((includedVars size fuel varidx rs).map size).sum + 10 ≤ 4096 := by
  induction fuel with
  | zero =>
    intro varidx rs h
    simpa [includedVars] using h
  | succ fuel ih =>
    intro varidx rs h
    by_cases hc : rs + 10 + size varidx ≤ 4096
    · have := ih (varidx + 1) (rs + size varidx) (by omega)
      simp [includedVars, hc]
      omega
    · simpa [includedVars, hc] using h

lemma flatMap_length_sum (value : Nat → List Nat) (size : Nat → Nat)
    (hval : ∀ i, (value i).length = size i) (l : List Nat) :
    (l.flatMap value).length = (l.map size).sum := by
  induction l with
  | nil => rfl
  | cons a t ih => simp [List.flatMap_cons, ih, hval a]

/-- Claim C9: for a GET_TRACE request with startidx ≤ endidx < varCount,
the reply is [0x43, 0x7E, last_idx(2 BE), tick(4 BE), payload_len(2 BE),
payload] where the payload concatenates, in index order, the bytes of
exactly the greedily included variables (packed while
10 + accumulated + size(var) ≤ 4096); the total length is 10 plus the sum
of the included sizes and never exceeds 4096. -/
theorem claim_C9_get_trace_frame (varCount : Nat) (size : Nat → Nat)
    (value : Nat → List Nat) (tick startidx endidx : Nat)
    (hse : startidx ≤ endidx) (hev : endidx < varCount)
    (hval : ∀ i, (value i).length = size i) :
    debugGetTrace varCount size value tick startidx endidx =
      [0x43, 0x7E] ++
        be16 ((includedVars size (endidx + 1 - startidx) startidx
          0).getLast?.getD startidx) ++
        be32 tick ++
        be16 (((includedVars size (endidx + 1 - startidx) startidx
          0).map size).sum) ++
        (includedVars size (endidx + 1 - startidx) startidx 0).flatMap
          value ∧
    (debugGetTrace varCount size value tick startidx endidx).length =
      10 + ((includedVars size (endidx + 1 - startidx) startidx
        0).map size).sum ∧
    (debugGetTrace varCount size value tick startidx endidx).length ≤
      4096 := by
  have hcond : ¬(varCount ≤ startidx ∨ varCount ≤ endidx ∨
      endidx < startidx) := by omega
  have hframe : debugGetTrace varCount size value tick startidx endidx =
      [0x43, 0x7E] ++
        be16 ((includedVars size (endidx + 1 - startidx) startidx
          0).getLast?.getD startidx) ++
        be32 tick ++
        be16 (((includedVars size (endidx + 1 - startidx) startidx
          0).map size).sum) ++
        (includedVars size (endidx + 1 - startidx) startidx 0).flatMap
          value := by
    simp [debugGetTrace, hcond, traceLast_eq, traceSize_eq, tracePayload_eq]
  have hlen : (debugGetTrace varCount size value tick startidx
      endidx).length =
      10 + ((includedVars size (endidx + 1 - startidx) startidx
        0).map size).sum := by
    rw [hframe]
    simp [be16, be32,
      flatMap_length_sum value size hval
        (includedVars size (endidx + 1 - startidx) startidx 0)]
    omega
  refine ⟨hframe, hlen, ?_⟩
  rw [hlen]
  have := includedVars_bound size (endidx + 1 - startidx) startidx 0
    (by omega)
  omega

/-- Witness for C9: three variables of 5 bytes each, request 0..2; all
fit, so the reply length is 10 + 15 = 25. -/
theorem claim_C9_witness :
    ((0 : Nat) ≤ 2 ∧ (2 : Nat) < 3) ∧
    (debugGetTrace 3 (fun _ => 5) (fun i => List.replicate 5 i) 7 0
      2).length =
      10 + ((includedVars (fun _ => 5) 3 0 0).map (fun _ => 5)).sum ∧
    (debugGetTrace 3 (fun _ => 5) (fun i => List.replicate 5 i) 7 0
      2).length = 25 :=
  ⟨⟨by decide, by decide⟩,
    (claim_C9_get_trace_frame 3 (fun _ => 5) (fun i => List.replicate 5 i)
      7 0 2 (by decide) (by decide) (fun i => by simp)).2.1,
    by decide⟩

end OpenPLC
